import Mathlib

/-!
Shallow embedding of the BlockHost engine wizard modules
(`src/blockhost/engine_opnet/wizard.py`, `src/blockhost/engine_evm/wizard.py`,
`src/root-agent-actions/wallet.py`) and proofs about the claims of the
natural-language specification.

Modelling conventions:
* Python dicts are association lists over a `PyVal` value type; `dict.get`,
  item assignment, and `dict.update` are embedded as `dGet`, `dSet`, `dUpdate`.
* The filesystem is a map `FS = String → Option PyVal`; structured files
  (YAML/JSON) hold their parsed value, plain-text files hold `.pstr`.
  Serialization (`yaml.safe_dump`, `json.dumps`) is the identity on this
  structured representation.
* External subprocess invocations are oracles of type `Subproc`: the
  environment fixes each call's outcome (exit status and captured output,
  or the exception the call raised).
* OS-level exceptions at filesystem operations are modelled by optional
  exception slots in each environment record, placed at the first I/O
  point of the corresponding Python code region.
-/

namespace Blockhost

/-! ## Python string primitives

All string operations are implemented by structural recursion on the
character list, so that every definition evaluates inside the kernel. -/

/-- Drop leading whitespace characters. -/
def dropWhileWs : List Char → List Char
  | [] => []
  | c :: t => if c.isWhitespace then dropWhileWs t else c :: t

/-- Python `str.strip()`: trim whitespace on both ends. -/
def pyStrip (s : String) : String :=
  String.mk (dropWhileWs (dropWhileWs s.toList.reverse).reverse)

/-- Python `str.lower()` (all inputs in this code are ASCII). -/
def pyLower (s : String) : String := String.mk (s.toList.map Char.toLower)

/-- Containment of `sub` in `hay`, Python `sub in hay` on lists of chars. -/
def listHasSub : List Char → List Char → Bool
  | hay@(_ :: t), sub => List.isPrefixOf sub hay || listHasSub t sub
  | [], sub => sub.isEmpty

/-- Python `sub in hay` for strings. -/
def strContains (hay sub : String) : Bool := listHasSub hay.toList sub.toList

/-- Python `s.startswith(p)`. -/
def strStartsWith (s p : String) : Bool := List.isPrefixOf p.toList s.toList

/-- Python `s.split(sep)` for a one-character separator (empty pieces are
kept; the split of `""` is `[""]`). -/
def splitOnChar : List Char → Char → List (List Char)
  | [], _ => [[]]
  | c :: t, sep =>
    if c == sep then [] :: splitOnChar t sep
    else
      match splitOnChar t sep with
      | [] => [[c]]
      | h :: t2 => (c :: h) :: t2

/-- Python `s.split("\n")`. -/
def pyLinesNl (s : String) : List String :=
  (splitOnChar s.toList '\n').map String.mk

/-- Worker of `pySplitWs` (`acc` holds the current word, reversed). -/
def splitWsGo : List Char → List Char → List String
  | [], acc => if acc.isEmpty then [] else [String.mk acc.reverse]
  | c :: t, acc =>
    if c.isWhitespace then
      if acc.isEmpty then splitWsGo t []
      else String.mk acc.reverse :: splitWsGo t []
    else splitWsGo t (c :: acc)

/-- Python `str.split()` with no argument: split on whitespace runs,
dropping empty pieces. -/
def pySplitWs (s : String) : List String := splitWsGo s.toList []

/-- Python `s.replace("0x", "")`: remove each (non-overlapping, leftmost)
occurrence of `0x`. -/
def remove0x : List Char → List Char
  | '0' :: 'x' :: t => remove0x t
  | c :: t => c :: remove0x t
  | [] => []

/-- `s.replace("0x", "")` on strings. -/
def strip0x (s : String) : String := String.mk (remove0x s.toList)

/-- A hex digit as accepted by `[0-9a-fA-F]`. -/
def isHexDig (c : Char) : Bool :=
  c.isDigit || ('a' ≤ c && c ≤ 'f') || ('A' ≤ c && c ≤ 'F')

/-- A lowercase hex digit `[0-9a-f]`. -/
def isLowerHexDig (c : Char) : Bool := c.isDigit || ('a' ≤ c && c ≤ 'f')

/-- Anchored Python regex match for a pattern `^core$`: the `$` anchor also
matches just before a single trailing newline. -/
def pyDollarMatch (core : String → Bool) (s : String) : Bool :=
  core s || (s.toList.getLast? == some '\n' &&
    core (String.mk (s.toList.take (s.toList.length - 1))))

/-- Body of `INTERNAL_ADDRESS_RE = ^0x[0-9a-fA-F]{64}$` (without anchors). -/
def internalAddrCore (s : String) : Bool :=
  strStartsWith s "0x" && s.toList.length == 66 &&
    (s.toList.drop 2).all isHexDig

/-- One data character of `BECH32_ADDRESS_RE`: `[a-z0-9]`. -/
def bech32DataChar (c : Char) : Bool := ('a' ≤ c && c ≤ 'z') || c.isDigit

/-- Body of `BECH32_ADDRESS_RE = ^(bc|tb|bcrt|op|opt|opr)1[a-z0-9]{8,87}$`
(regex alternation with a fully anchored tail: some alternative prefixes
the string and the remaining data characters fit the class and count). -/
def bech32Core (s : String) : Bool :=
  ["bc", "tb", "bcrt", "op", "opt", "opr"].any fun p =>
    strStartsWith s (p ++ "1") &&
      (let rest := s.toList.drop (p.toList.length + 1)
       decide (8 ≤ rest.length) && decide (rest.length ≤ 87) &&
         rest.all bech32DataChar)

/-- `engine_opnet.wizard.validate_address`: OPNet internal address
(`0x` + 64 hex) or Bitcoin/OPNet bech32-family address. -/
def validate_address (address : String) : Bool :=
  if address == "" then false
  else
    let addr := pyStrip address
    pyDollarMatch internalAddrCore addr || pyDollarMatch bech32Core addr

/-! ## Python values, dicts and the filesystem -/

/-- A Python value as it occurs in the configuration dictionaries of the
wizard modules. -/
inductive PyVal where
  | pstr (s : String)
  | pnat (n : Nat)
  | pbool (b : Bool)
  | plist (xs : List PyVal)
  | pdict (xs : List (String × PyVal))

/-- A Python dict: insertion-ordered association list. -/
abbrev PyDict := List (String × PyVal)

/-- `d.get(k)` / `d[k]` lookup. -/
def dGet (d : PyDict) (k : String) : Option PyVal :=
  match d.find? (fun kv => kv.1 == k) with
  | some kv => some kv.2
  | none => none

/-- `d[k] = v`: update in place if present (order preserved), else append. -/
def dSet (d : PyDict) (k : String) (v : PyVal) : PyDict :=
  if d.any (fun kv => kv.1 == k) then
    d.map (fun kv => if kv.1 == k then (k, v) else kv)
  else d ++ [(k, v)]

/-- `d.update(upd)` (shallow). -/
def dUpdate (d upd : PyDict) : PyDict :=
  upd.foldl (fun acc kv => dSet acc kv.1 kv.2) d

/-- Python truthiness of a value. -/
def PyVal.truthy : PyVal → Bool
  | .pstr s => s != ""
  | .pnat n => n != 0
  | .pbool b => b
  | .plist xs => !xs.isEmpty
  | .pdict xs => !xs.isEmpty

/-- View a value as a string; non-string values are outside the state
space exercised by the embedded code paths. -/
def PyVal.asStr : PyVal → String
  | .pstr s => s
  | _ => ""

/-- Python `str(v)` for values interpolated into messages and argv lists. -/
def PyVal.pyToString : PyVal → String
  | .pstr s => s
  | .pnat n => toString n
  | .pbool b => if b then "True" else "False"
  | _ => ""

/-- A wizard configuration dict (the `config` threaded through steps,
and the nested `blockchain` / `provisioner` / `admin_commands` sections). -/
abbrev Config := PyDict

/-- `c.get(k, d)` for string-valued keys. -/
def getS (c : Config) (k d : String) : String :=
  match dGet c k with
  | some v => v.asStr
  | none => d

/-- `c.get(k, {})` for dict-valued keys. -/
def getDict (c : Config) (k : String) : PyDict :=
  match dGet c k with
  | some (.pdict d) => d
  | _ => []

/-- Truthiness of `c.get(k)`. -/
def truthyKey (c : Config) (k : String) : Bool :=
  match dGet c k with
  | some v => v.truthy
  | none => false

/-- The filesystem: structured files map to their parsed value, text files
to `.pstr`, absent files to `none`. -/
abbrev FS := String → Option PyVal

/-- Write (create or overwrite) one file. -/
def fsWrite (fs : FS) (p : String) (v : PyVal) : FS :=
  fun q => if q == p then some v else fs q

/-! ## Subprocess oracle and invocation traces -/

/-- Outcome of one `subprocess.run` call, fixed by the environment:
it finished with an exit status and captured output, or it raised
`FileNotFoundError`, `subprocess.TimeoutExpired`, or some other exception
(each carrying its `str(e)` rendering). -/
inductive Subproc where
  | finished (rc : Int) (stdout stderr : String)
  | notFound (msg : String)
  | timedOut (msg : String)
  | err (msg : String)
  deriving DecidableEq

/-- Did the call raise (any exception, including timeout)? -/
def Subproc.isExc : Subproc → Bool
  | .finished _ _ _ => false
  | _ => true

/-- One observable external event: an attempted tool invocation (argv) or a
`time.sleep`. -/
inductive Ev where
  | run (cmd : List String)
  | sleep (secs : Nat)
  deriving DecidableEq

/-- A pending exception classified the way the step functions classify
their `except` clauses. -/
inductive PExc where
  | timeout (msg : String)
  | other (msg : String)
  deriving DecidableEq

/-! ## Async deploy jobs -/

/-- One record of the module-level `_deploy_jobs` registry. -/
structure DeployJob where
  status : String
  message : String
  nft_contract : Option String
  subscription_contract : Option String
  deriving DecidableEq

/-- The job registry `_deploy_jobs`. -/
abbrev Registry := String → Option DeployJob

/-- The record inserted by `api_deploy` before the job id is returned. -/
def initialDeployJob : DeployJob :=
  { status := "running"
    message := "Starting contract deployment..."
    nft_contract := none
    subscription_contract := none }

/-- Response of the `/api/blockchain/deploy` route. -/
inductive ApiResp where
  | badRequest (msg : String)
  | started (job_id : String)
  deriving DecidableEq

/-- `engine_opnet.wizard.api_deploy`: validate the request, then insert a
`running` job under `"deploy-" ++ tokenHex` (`tokenHex` models
`secrets.token_hex(4)`) and return the id. The worker thread runs later. -/
def opnetApiDeploy (jobs : Registry)
    (deployer_mnemonic rpc_url payment_token tokenHex : String) :
    ApiResp × Registry :=
  let dm := pyStrip deployer_mnemonic
  let ru := pyStrip rpc_url
  let pt := pyStrip payment_token
  if dm == "" || ru == "" then
    (.badRequest "deployer_mnemonic and rpc_url required", jobs)
  else if pt == "" then
    (.badRequest "payment_token required for subscription contract deployment",
     jobs)
  else
    let job_id := "deploy-" ++ tokenHex
    (.started job_id, fun k => if k == job_id then some initialDeployJob else jobs k)

/-- `engine_evm.wizard.api_deploy` (no payment-token requirement). -/
def evmApiDeploy (jobs : Registry)
    (deployer_key rpc_url tokenHex : String) :
    ApiResp × Registry :=
  let dk := pyStrip deployer_key
  let ru := pyStrip rpc_url
  if dk == "" || ru == "" then
    (.badRequest "deployer_key and rpc_url required", jobs)
  else
    let job_id := "deploy-" ++ tokenHex
    (.started job_id, fun k => if k == job_id then some initialDeployJob else jobs k)

/-- The 0x-line scan both `_run_deploy` workers apply to the deploy tool's
stdout: `[line.strip() for line in stdout.strip().split("\n")
if line.strip().startswith("0x")]`. -/
def parse0xLines (stdout : String) : List String :=
  ((pyLinesNl (pyStrip stdout)).map pyStrip).filter
    (fun l => strStartsWith l "0x")

/-- Environment of one `engine_opnet.wizard._run_deploy` execution.
`preExc` is an exception raised by the initial mkdir / mnemonic-file write /
ownership calls (before the tool is looked up). -/
structure OpnetDeployEnv where
  preExc : Option String
  usrScriptExists : Bool
  devScriptExists : Bool
  deployRun : Subproc

/-- `engine_opnet.wizard._run_deploy`, acting on the job record it owns.
Returns the final record and the trace of `status` assignments made. -/
def opnetRunDeploy (env : OpnetDeployEnv) (job : DeployJob) :
    DeployJob × List String :=
  match env.preExc with
  | some m => ({ job with status := "failed", message := m }, ["failed"])
  | none =>
    if !env.usrScriptExists && !env.devScriptExists then
      ({ job with
          status := "failed"
          message := "blockhost-deploy-contracts not found" }, ["failed"])
    else
      let job := { job with message := "Deploying contracts..." }
      match env.deployRun with
      | .timedOut _ =>
          ({ job with
              status := "failed"
              message := "Deployment timed out (10 minutes)" }, ["failed"])
      | .notFound m =>
          ({ job with status := "failed", message := m }, ["failed"])
      | .err m =>
          ({ job with status := "failed", message := m }, ["failed"])
      | .finished rc stdout stderr =>
        if rc != 0 then
          ({ job with
              status := "failed"
              message := "Deployment failed: " ++
                (if stderr != "" then stderr else stdout) }, ["failed"])
        else
          let pubkeys := parse0xLines stdout
          if 2 ≤ pubkeys.length then
            ({ job with
                nft_contract := pubkeys[0]?
                subscription_contract := pubkeys[1]?
                status := "completed"
                message := "Contracts deployed successfully" }, ["completed"])
          else if pubkeys.length == 1 then
            ({ job with
                nft_contract := pubkeys[0]?
                status := "completed"
                message :=
                  "NFT contract deployed (subscription may need payment token)" },
             ["completed"])
          else
            ({ job with
                status := "failed"
                message := "Could not parse contract pubkeys from output: "
                  ++ stdout }, ["failed"])

/-- Does the opnet worker's environment raise an exception during the run
(at the pre-tool file operations, or from `subprocess.run` itself)? -/
def opnetEnvRaises (e : OpnetDeployEnv) : Bool :=
  e.preExc.isSome ||
    ((e.usrScriptExists || e.devScriptExists) && e.deployRun.isExc)

/-- Environment of one `engine_evm.wizard._cast_deploy` call. `readExc` is
an exception while reading/parsing the artifact file; `txContractAddress`
is the `contractAddress` field parsed from the tool's JSON stdout (`none`
covers both a JSON parse error and a missing field). -/
structure CastEnv where
  readExc : Bool
  castRun : Subproc
  txContractAddress : Option String

/-- `engine_evm.wizard._cast_deploy`: returns the deployed address or
`none`; every exception is swallowed. The second component records the
attempted `cast send --create` invocation (tagged by the artifact name). -/
def castDeploy (e : CastEnv) (artifact : String) : Option String × List Ev :=
  if e.readExc then (none, [])
  else
    match e.castRun with
    | .finished rc _ _ =>
        (if rc == 0 then e.txContractAddress else none,
         [.run ["cast", "send", "--create", artifact]])
    | .notFound _ => (none, [.run ["cast", "send", "--create", artifact]])
    | .timedOut _ => (none, [.run ["cast", "send", "--create", artifact]])
    | .err _ => (none, [.run ["cast", "send", "--create", artifact]])

/-- Environment of one `engine_evm.wizard._run_deploy` execution. -/
structure EvmDeployEnv where
  /-- exception writing `/tmp/blockhost-deploy-key` (before the inner
  `try`/`finally`, so the `finally` unlink does not run). -/
  tmpWriteExc : Option String
  deployScriptExists : Bool
  /-- exception writing `deployer.key` / the minimal `web3-defaults.yaml`
  (including the un-guarded `installer.web.utils` import). -/
  cfgWriteExc : Option String
  deployRun : Subproc
  nftArtifactExists : Bool
  subArtifactExists : Bool
  nftCast : CastEnv
  subCast : CastEnv
  /-- exception raised by the `finally` unlink of the tmp key. -/
  unlinkExc : Option String

/-- Subscription-contract phase of `engine_evm.wizard._deploy_with_cast`. -/
def evmCastSubPhase (env : EvmDeployEnv) (job : DeployJob) :
    DeployJob × List String :=
  let job := { job with message := "Deploying subscription contract..." }
  match (castDeploy env.subCast "BlockhostSubscriptions.json").1 with
  | none =>
      ({ job with
          status := "failed"
          message := "Subscription contract deployment failed" }, ["failed"])
  | some a =>
      ({ job with
          subscription_contract := some a
          status := "completed"
          message := "Contracts deployed successfully" }, ["completed"])

/-- `engine_evm.wizard._deploy_with_cast`. -/
def evmDeployWithCast (env : EvmDeployEnv) (job : DeployJob) :
    DeployJob × List String :=
  if !env.subArtifactExists then
    ({ job with
        status := "failed"
        message := "Compiled contract artifacts not found. " ++
          "Install blockhost-engine package or compile contracts with forge." },
     ["failed"])
  else
    let job := { job with message := "Deploying NFT contract..." }
    if env.nftArtifactExists then
      match (castDeploy env.nftCast "AccessCredentialNFT.json").1 with
      | none =>
          ({ job with
              status := "failed"
              message := "NFT contract deployment failed" }, ["failed"])
      | some a => evmCastSubPhase env { job with nft_contract := some a }
    else evmCastSubPhase env job

/-- Body of the inner `try` of `engine_evm.wizard._run_deploy` (after the
tmp key was written): returns the mutated job, its status-write trace, and
a pending exception that will propagate through the `finally`. -/
def evmRunDeployBody (env : EvmDeployEnv) (job : DeployJob) :
    DeployJob × List String × Option String :=
  if env.deployScriptExists then
    let job :=
      { job with message := "Deploying contracts via blockhost-deploy-contracts..." }
    match env.cfgWriteExc with
    | some m => (job, [], some m)
    | none =>
      match env.deployRun with
      | .timedOut m => (job, [], some m)
      | .notFound m => (job, [], some m)
      | .err m => (job, [], some m)
      | .finished rc stdout _ =>
        if rc == 0 then
          let addresses := parse0xLines stdout
          if 2 ≤ addresses.length then
            ({ job with
                nft_contract := addresses[0]?
                subscription_contract := addresses[1]?
                status := "completed"
                message := "Contracts deployed successfully" },
             ["completed"], none)
          else if addresses.length == 1 then
            ({ job with
                nft_contract := addresses[0]?
                status := "completed"
                message := "NFT contract deployed" }, ["completed"], none)
          else
            let job :=
              { job with message := "Deploy script failed, trying cast fallback..." }
            let r := evmDeployWithCast env job
            (r.1, r.2, none)
        else
          let job :=
            { job with message := "Deploy script failed, trying cast fallback..." }
          let r := evmDeployWithCast env job
          (r.1, r.2, none)
  else
    let r := evmDeployWithCast env job
    (r.1, r.2, none)

/-- `engine_evm.wizard._run_deploy`: tmp-key write, inner `try`/`finally`
(the `finally` unlink may itself raise, replacing any pending exception),
and the outer `except Exception` that records a `failed` status. -/
def evmRunDeploy (env : EvmDeployEnv) (job : DeployJob) :
    DeployJob × List String :=
  match env.tmpWriteExc with
  | some m => ({ job with status := "failed", message := m }, ["failed"])
  | none =>
    let r := evmRunDeployBody env job
    let pending : Option String :=
      match env.unlinkExc with
      | some m => some m
      | none => r.2.2
    match pending with
    | some m =>
        ({ r.1 with status := "failed", message := m }, r.2.1 ++ ["failed"])
    | none => (r.1, r.2.1)

/-- Does the evm worker's environment raise an exception during the run? -/
def evmEnvRaises (e : EvmDeployEnv) : Bool :=
  e.tmpWriteExc.isSome ||
    (e.deployScriptExists && (e.cfgWriteExc.isSome || e.deployRun.isExc)) ||
    (!e.tmpWriteExc.isSome && e.unlinkExc.isSome)

/-! ## Finalization step: contracts -/

/-- A step outcome `tuple[bool, Optional[str]]`. -/
abbrev StepOutcome := Bool × Option String

/-- `engine_opnet.wizard._verify_contract_exists`: true iff `is contract
<address>` exits 0; `FileNotFoundError` and timeout yield false; any other
exception propagates to the caller. -/
def opnetVerifyContract (s : Subproc) (address : String) :
    Except PExc Bool × List Ev :=
  (match s with
   | .finished rc _ _ => .ok (rc == 0)
   | .notFound _ => .ok false
   | .timedOut _ => .ok false
   | .err m => .error (.other m),
   [.run ["is", "contract", address]])

/-- Environment of one `engine_opnet.wizard.finalize_contracts` run. -/
structure OpnetContractsEnv where
  verifyNft : Subproc
  verifySub : Subproc
  /-- does `/etc/blockhost/deployer.key` exist? -/
  keyFileExists : Bool
  /-- exception writing the mnemonic file (first I/O of the deploy path). -/
  writeExc : Option String
  usrScriptExists : Bool
  devScriptExists : Bool
  deployRun : Subproc

/-- `engine_opnet.wizard.finalize_contracts`. Returns the step outcome, the
updated `config` dict, and the trace of attempted tool invocations. -/
def opnetFinalizeContracts (cfg : Config) (env : OpnetContractsEnv) :
    StepOutcome × Config × List Ev :=
  let blockchain := getDict cfg "blockchain"
  let contract_mode := getS blockchain "contract_mode" "deploy"
  if contract_mode == "existing" then
    let nft := getS blockchain "nft_contract" ""
    let sub := getS blockchain "subscription_contract" ""
    if nft == "" || sub == "" then
      ((false, some "Contract addresses required for existing mode"), cfg, [])
    else
      if !validate_address nft then
        ((false, some ("Invalid NFT address: " ++ nft)), cfg, [])
      else
        match opnetVerifyContract env.verifyNft nft with
        | (.error (.timeout _), t) =>
            ((false, some "Contract deployment timed out (10 minutes)"), cfg, t)
        | (.error (.other m), t) => ((false, some m), cfg, t)
        | (.ok false, t) =>
            ((false, some ("NFT contract not found at " ++ nft)), cfg, t)
        | (.ok true, t) =>
          if !validate_address sub then
            ((false, some ("Invalid Subscription address: " ++ sub)), cfg, t)
          else
            match opnetVerifyContract env.verifySub sub with
            | (.error (.timeout _), t2) =>
                ((false, some "Contract deployment timed out (10 minutes)"),
                 cfg, t ++ t2)
            | (.error (.other m), t2) => ((false, some m), cfg, t ++ t2)
            | (.ok false, t2) =>
                ((false, some ("Subscription contract not found at " ++ sub)),
                 cfg, t ++ t2)
            | (.ok true, t2) =>
                ((true, none),
                 dSet cfg "_step_result_contracts"
                   (.pdict [("nft_contract", .pstr nft),
                            ("subscription_contract", .pstr sub)]),
                 t ++ t2)
  else
    let nft := getS blockchain "nft_contract" ""
    let sub := getS blockchain "subscription_contract" ""
    if nft != "" && sub != "" then
      ((true, none),
       dSet cfg "_step_result_contracts"
         (.pdict [("nft_contract", .pstr nft),
                  ("subscription_contract", .pstr sub)]),
       [])
    else
      let mnemonic := getS blockchain "deployer_mnemonic" ""
      if !env.keyFileExists && mnemonic == "" then
        ((false, some "Deployer mnemonic not available"), cfg, [])
      else
        match (if !env.keyFileExists then env.writeExc else none) with
        | some m => ((false, some m), cfg, [])
        | none =>
          let payment_token := getS blockchain "payment_token" ""
          if payment_token == "" then
            ((false, some ("Payment token address required for contract " ++
              "deployment. Go back to the blockchain step and enter the " ++
              "OP_20 stablecoin address.")), cfg, [])
          else
            if !env.usrScriptExists && !env.devScriptExists then
              ((false, some "blockhost-deploy-contracts not found"), cfg, [])
            else
              let script :=
                if env.usrScriptExists then "/usr/bin/blockhost-deploy-contracts"
                else "/opt/blockhost/scripts/deploy-contracts"
              match env.deployRun with
              | .timedOut _ =>
                  ((false, some "Contract deployment timed out (10 minutes)"),
                   cfg, [.run [script]])
              | .notFound m => ((false, some m), cfg, [.run [script]])
              | .err m => ((false, some m), cfg, [.run [script]])
              | .finished rc stdout stderr =>
                if rc != 0 then
                  ((false, some ("Contract deployment failed: " ++
                    (if stderr != "" then stderr else stdout))),
                   cfg, [.run [script]])
                else
                  let pubkeys := parse0xLines stdout
                  if 2 ≤ pubkeys.length then
                    let nc := pubkeys[0]?.getD ""
                    let sc := pubkeys[1]?.getD ""
                    let blockchain2 :=
                      dSet (dSet blockchain "nft_contract" (.pstr nc))
                        "subscription_contract" (.pstr sc)
                    let cfg2 := dSet cfg "blockchain" (.pdict blockchain2)
                    ((true, none),
                     dSet cfg2 "_step_result_contracts"
                       (.pdict [("nft_contract", .pstr nc),
                                ("subscription_contract", .pstr sc)]),
                     [.run [script]])
                  else
                    ((false, some ("Expected 2 contract pubkeys, got " ++
                      toString pubkeys.length)), cfg, [.run [script]])

/-- Environment of one `engine_evm.wizard._verify_contract_exists` call.
`getCode` is the `result` field of the `eth_getCode` JSON-RPC fallback
(`none` models any exception in the RPC path, which is swallowed). -/
structure EvmVerifyEnv where
  isRun : Subproc
  getCode : Option String

/-- `engine_evm.wizard._verify_contract_exists`: try the `is contract` CLI
(only `FileNotFoundError` falls through to the RPC check; a timeout
propagates to the caller's handler). -/
def evmVerifyContract (e : EvmVerifyEnv) (address : String) :
    Except PExc Bool × List Ev :=
  (match e.isRun with
   | .finished rc _ _ => .ok (rc == 0)
   | .notFound _ =>
      match e.getCode with
      | some code => .ok (!(code == "0x" || code == "0x0" || code == ""))
      | none => .ok false
   | .timedOut m => .error (.timeout m)
   | .err m => .error (.other m),
   [.run ["is", "contract", address]])

/-- Environment of one `engine_evm.wizard.finalize_contracts` run. -/
structure EvmContractsEnv where
  verifyNft : EvmVerifyEnv
  verifySub : EvmVerifyEnv
  keyFileExists : Bool
  writeExc : Option String
  deployScriptExists : Bool
  /-- exception from `_write_minimal_web3_defaults` (its un-guarded
  `installer.web.utils` import may raise `ImportError`). -/
  web3WriteExc : Option String
  deployRun : Subproc
  nftArtifactExists : Bool
  subArtifactExists : Bool
  nftCast : CastEnv
  subCast : CastEnv

/-- Cast fallback tail of `engine_evm.wizard.finalize_contracts` (reached
when the deploy script is absent, failed, or printed fewer than two
addresses). `tPrev` is the invocation trace accumulated so far. The Python
code mutates the aliased `blockchain` sub-dict in place; the model writes
the section back into `config` at each mutation. -/
def evmFinalizeContractsCast (cfg : Config) (env : EvmContractsEnv)
    (blockchain : PyDict) (tPrev : List Ev) :
    StepOutcome × Config × List Ev :=
  if !env.subArtifactExists then
    ((false, some ("Contract artifacts not found at " ++
      "/usr/share/blockhost/contracts. Install blockhost-engine package.")),
     cfg, tPrev)
  else
    let step2 := fun (cfg : Config) (blockchain : PyDict) (t : List Ev) =>
      let r := castDeploy env.subCast "BlockhostSubscriptions.json"
      match r.1 with
      | none =>
          ((false, some "Subscription contract deployment failed"), cfg,
           t ++ r.2)
      | some sub_addr =>
        let blockchain2 := dSet blockchain "subscription_contract" (.pstr sub_addr)
        let cfg2 := dSet cfg "blockchain" (.pdict blockchain2)
        ((true, none),
         dSet cfg2 "_step_result_contracts"
           (.pdict [("nft_contract", .pstr (getS blockchain2 "nft_contract" "")),
                    ("subscription_contract", .pstr sub_addr)]),
         t ++ r.2)
    if env.nftArtifactExists then
      let r := castDeploy env.nftCast "AccessCredentialNFT.json"
      match r.1 with
      | none =>
          ((false, some "NFT contract deployment failed"), cfg, tPrev ++ r.2)
      | some nft_addr =>
          let blockchain2 := dSet blockchain "nft_contract" (.pstr nft_addr)
          step2 (dSet cfg "blockchain" (.pdict blockchain2)) blockchain2
            (tPrev ++ r.2)
    else step2 cfg blockchain tPrev

/-- `engine_evm.wizard.finalize_contracts`. -/
def evmFinalizeContracts (cfg : Config) (env : EvmContractsEnv) :
    StepOutcome × Config × List Ev :=
  let blockchain := getDict cfg "blockchain"
  let contract_mode := getS blockchain "contract_mode" "deploy"
  if contract_mode == "existing" then
    let nft := getS blockchain "nft_contract" ""
    let sub := getS blockchain "subscription_contract" ""
    if nft == "" || sub == "" then
      ((false, some "Contract addresses required for existing mode"), cfg, [])
    else
      match evmVerifyContract env.verifyNft nft with
      | (.error (.timeout _), t) =>
          ((false, some "Contract deployment timed out"), cfg, t)
      | (.error (.other m), t) => ((false, some m), cfg, t)
      | (.ok false, t) =>
          ((false, some ("NFT contract not found at " ++ nft)), cfg, t)
      | (.ok true, t) =>
        match evmVerifyContract env.verifySub sub with
        | (.error (.timeout _), t2) =>
            ((false, some "Contract deployment timed out"), cfg, t ++ t2)
        | (.error (.other m), t2) => ((false, some m), cfg, t ++ t2)
        | (.ok false, t2) =>
            ((false, some ("Subscription contract not found at " ++ sub)),
             cfg, t ++ t2)
        | (.ok true, t2) =>
            ((true, none),
             dSet cfg "_step_result_contracts"
               (.pdict [("nft_contract", .pstr nft),
                        ("subscription_contract", .pstr sub)]),
             t ++ t2)
  else
    let nft := getS blockchain "nft_contract" ""
    let sub := getS blockchain "subscription_contract" ""
    if nft != "" && sub != "" then
      ((true, none),
       dSet cfg "_step_result_contracts"
         (.pdict [("nft_contract", .pstr nft),
                  ("subscription_contract", .pstr sub)]),
       [])
    else
      let deployer_key := strip0x (getS blockchain "deployer_key" "")
      if !env.keyFileExists && deployer_key == "" then
        ((false, some "Deployer key not available"), cfg, [])
      else
        match (if !env.keyFileExists then env.writeExc else none) with
        | some m => ((false, some m), cfg, [])
        | none =>
          if env.deployScriptExists then
            match env.web3WriteExc with
            | some m => ((false, some m), cfg, [])
            | none =>
              let script := "/usr/bin/blockhost-deploy-contracts"
              match env.deployRun with
              | .timedOut _ =>
                  ((false, some "Contract deployment timed out"), cfg,
                   [.run [script]])
              | .notFound m => ((false, some m), cfg, [.run [script]])
              | .err m => ((false, some m), cfg, [.run [script]])
              | .finished rc stdout _ =>
                let addresses := parse0xLines stdout
                if rc == 0 && 2 ≤ addresses.length then
                  let nc := addresses[0]?.getD ""
                  let sc := addresses[1]?.getD ""
                  let blockchain2 :=
                    dSet (dSet blockchain "nft_contract" (.pstr nc))
                      "subscription_contract" (.pstr sc)
                  let cfg2 := dSet cfg "blockchain" (.pdict blockchain2)
                  ((true, none),
                   dSet cfg2 "_step_result_contracts"
                     (.pdict [("nft_contract", .pstr nc),
                              ("subscription_contract", .pstr sc)]),
                   [.run [script]])
                else
                  evmFinalizeContractsCast cfg env blockchain [.run [script]]
          else
            evmFinalizeContractsCast cfg env blockchain []

/-! ## Finalization steps: wallet and chain_config -/

/-- Environment of one `engine_opnet.wizard.finalize_wallet` run.
`entryExc` models an exception at the initial `CONFIG_DIR.mkdir` (the first
I/O of the step) or at the later file read/write. -/
structure WalletStepEnv where
  entryExc : Option String

/-- `engine_opnet.wizard.finalize_wallet`: validate the mnemonic, then
write `/etc/blockhost/deployer.key`, skipping the write if the file already
holds the same mnemonic. -/
def opnetFinalizeWallet (cfg : Config) (env : WalletStepEnv) (fs : FS) :
    StepOutcome × Config × FS :=
  match env.entryExc with
  | some m => ((false, some m), cfg, fs)
  | none =>
    let blockchain := getDict cfg "blockchain"
    let mnemonic := getS blockchain "deployer_mnemonic" ""
    if mnemonic == "" then
      ((false, some "No deployer mnemonic in configuration"), cfg, fs)
    else
      let nwords := (pySplitWs mnemonic).length
      if !(nwords == 12 || nwords == 15 || nwords == 18 || nwords == 21 ||
           nwords == 24) then
        ((false, some ("Invalid mnemonic word count (" ++ toString nwords ++ ")")),
         cfg, fs)
      else
        let keyPath := "/etc/blockhost/deployer.key"
        let cfg2 := dSet cfg "_step_result_wallet"
          (.pdict [("address", .pstr (getS blockchain "deployer_address" ""))])
        match fs keyPath with
        | some (.pstr content) =>
          if pyStrip content == mnemonic then ((true, none), cfg2, fs)
          else ((true, none), cfg2, fsWrite fs keyPath (.pstr mnemonic))
        | some _ => ((true, none), cfg2, fsWrite fs keyPath (.pstr mnemonic))
        | none => ((true, none), cfg2, fsWrite fs keyPath (.pstr mnemonic))

/-- Environment of one `finalize_chain_config` run (either engine).
`entryExc` models an exception at the initial mkdir calls; `bridgeDiscovered`
is the result of `_discover_bridge` (reads outside the modelled tree);
`yamlAvailable` is whether `import yaml` succeeds in the web3 merge. -/
structure ChainCfgEnv where
  entryExc : Option String
  bridgeDiscovered : String
  yamlAvailable : Bool
  /-- evm only: result of `_derive_address_from_key` (a fallback chain over
  two external tools; `none` = both failed). -/
  deriveAddr : Option String

/-- The per-section shallow merge both `finalize_chain_config` functions
apply to an existing `web3-defaults.yaml`. -/
def mergeSections (existing newCfg : PyDict) : PyDict :=
  newCfg.foldl
    (fun acc kv =>
      match kv.2, dGet acc kv.1 with
      | .pdict vd, some (.pdict ed) => dSet acc kv.1 (.pdict (dUpdate ed vd))
      | _, _ => dSet acc kv.1 kv.2)
    existing

/-- The `admin` section both `finalize_chain_config` functions build. -/
def adminSection (admin_wallet : String) (admin_commands : PyDict) : PyDict :=
  let base : PyDict :=
    [("wallet_address", .pstr admin_wallet),
     ("credential_nft_id", .pnat 0),
     ("max_command_age", .pnat 300)]
  if truthyKey admin_commands "enabled" then
    dSet base "destination_mode"
      ((dGet admin_commands "destination_mode").getD (.pstr "self"))
  else base

/-- The `provisioner` section both `finalize_chain_config` functions build
(only when the configured `provisioner` dict is truthy). -/
def provisionerSection (provisioner : PyDict) (bridge : String) : PyDict :=
  [("node", (dGet provisioner "node").getD (.pstr "")),
   ("bridge", (dGet provisioner "bridge").getD (.pstr bridge)),
   ("vmid_start", (dGet provisioner "vmid_start").getD (.pnat 100)),
   ("vmid_end", (dGet provisioner "vmid_end").getD (.pnat 999)),
   ("gc_grace_days", (dGet provisioner "gc_grace_days").getD (.pnat 7))]

/-- The conditional `admin-commands.json` content. -/
def adminCommandsContent (admin_commands : PyDict) : PyVal :=
  .pdict [("commands", .pdict
    [(((dGet admin_commands "knock_command").getD (.pstr "")).asStr, .pdict
      [("action", .pstr "knock"),
       ("description", .pstr "Open configured ports temporarily"),
       ("params", .pdict
         [("allowed_ports",
           (dGet admin_commands "knock_ports").getD (.plist [.pnat 22])),
          ("default_duration",
           (dGet admin_commands "knock_timeout").getD (.pnat 300))])])])]

/-- `provisioner.get("bridge") or _discover_bridge()`. -/
def bridgeOf (provisioner : PyDict) (discovered : String) : String :=
  match dGet provisioner "bridge" with
  | some v => if v.truthy then v.asStr else discovered
  | none => discovered

/-- Read `server.pubkey` the way both steps do (empty when absent). -/
def serverPubkeyOf (fs : FS) : String :=
  match fs "/etc/blockhost/server.pubkey" with
  | some (.pstr s) => pyStrip s
  | _ => ""

/-- `engine_opnet.wizard.finalize_chain_config`: write
`web3-defaults.yaml` (merged), `blockhost.yaml`, optionally
`admin-commands.json` and `admin-signature.key`, `.env`, and create
`vms.json` only when missing. -/
def opnetFinalizeChainConfig (cfg : Config) (env : ChainCfgEnv) (fs : FS) :
    StepOutcome × Config × FS :=
  match env.entryExc with
  | some m => ((false, some m), cfg, fs)
  | none =>
    let blockchain := getDict cfg "blockchain"
    let provisioner := getDict cfg "provisioner"
    let rpc_url := getS blockchain "rpc_url" ""
    let nft_contract := getS blockchain "nft_contract" ""
    let sub_contract := getS blockchain "subscription_contract" ""
    let payment_token := getS blockchain "payment_token" ""
    let admin_wallet := getS cfg "admin_wallet" ""
    let deployer_address := getS blockchain "deployer_address" ""
    let server_pubkey := serverPubkeyOf fs
    let bridge := bridgeOf provisioner env.bridgeDiscovered
    let web3_config : PyDict :=
      [("blockchain", .pdict
        [("rpc_url", .pstr rpc_url),
         ("nft_contract", .pstr nft_contract),
         ("subscription_contract", .pstr sub_contract),
         ("payment_token", .pstr payment_token),
         ("chain_id", (dGet blockchain "chain_id").getD (.pstr "")),
         ("server_public_key", .pstr server_pubkey)])]
    let web3Path := "/etc/blockhost/web3-defaults.yaml"
    let web3Final : PyDict :=
      match fs web3Path with
      | some existingVal =>
        if env.yamlAvailable then
          mergeSections
            (match existingVal with
             | .pdict d => d
             | _ => [])
            web3_config
        else web3_config
      | none => web3_config
    let fs := fsWrite fs web3Path (.pdict web3Final)
    let public_secret := getS cfg "admin_public_secret" "blockhost-access"
    let bh0 : PyDict :=
      [("server", .pdict
        [("address", .pstr deployer_address),
         ("key_file", .pstr "/etc/blockhost/deployer.key")]),
       ("server_public_key", .pstr server_pubkey),
       ("public_secret", .pstr public_secret),
       ("contract_address", .pstr sub_contract)]
    let bh1 :=
      if !provisioner.isEmpty then
        dSet bh0 "provisioner" (.pdict (provisionerSection provisioner bridge))
      else bh0
    let admin_commands := getDict cfg "admin_commands"
    let bh2 := dSet bh1 "admin" (.pdict (adminSection admin_wallet admin_commands))
    let fs := fsWrite fs "/etc/blockhost/blockhost.yaml" (.pdict bh2)
    let fs :=
      if truthyKey admin_commands "enabled" &&
         truthyKey admin_commands "knock_command" then
        fsWrite fs "/etc/blockhost/admin-commands.json"
          (adminCommandsContent admin_commands)
      else fs
    let admin_signature := getS cfg "admin_signature" ""
    let fs :=
      if admin_signature != "" then
        fsWrite fs "/etc/blockhost/admin-signature.key" (.pstr admin_signature)
      else fs
    let fs := fsWrite fs "/opt/blockhost/.env" (.pstr
      ("RPC_URL=" ++ rpc_url ++ "\nBLOCKHOST_CONTRACT=" ++ sub_contract ++
       "\nNFT_CONTRACT=" ++ nft_contract ++
       "\nDEPLOYER_KEY_FILE=/etc/blockhost/deployer.key\n"))
    let vmsPath := "/var/lib/blockhost/vms.json"
    let fs :=
      match fs vmsPath with
      | some _ => fs
      | none =>
        fsWrite fs vmsPath (.pdict
          [("vms", .pdict []),
           ("next_vmid", (dGet provisioner "vmid_start").getD (.pnat 100)),
           ("allocated_ips", .plist []),
           ("allocated_ipv6", .plist [])])
    ((true, none),
     dSet cfg "_step_result_chain_config"
       (.pdict [("message", .pstr "Configuration files written")]),
     fs)

/-- `USDC_BY_CHAIN.get(n, "")`. -/
def usdcByChain (n : Nat) : String :=
  if n == 11155111 then "0x1c7D4B196Cb0C7B01d743Fbc6116a902379C7238"
  else if n == 1 then "0xA0b86991c6218b36c1d19D4a2e9Eb0cE3606eB48"
  else if n == 137 then "0x2791Bca1f2de4661ED88A30C99A7a9449Aa84174"
  else if n == 42161 then "0xaf88d065e77c8cC2239327C5EDb3A432268e5831"
  else ""

/-- Python `s.isdigit()` (nonempty, all decimal digits). -/
def pyIsDigit (s : String) : Bool := s != "" && s.toList.all Char.isDigit

/-- Decimal digits to a number. -/
def digitsToNat (l : List Char) : Nat :=
  l.foldl (fun acc c => acc * 10 + (c.toNat - 48)) 0

/-- `int(chain_id) if chain_id.isdigit() else 0`. -/
def chainIdNat (chain_id : String) : Nat :=
  if pyIsDigit chain_id then digitsToNat chain_id.toList else 0

/-- `int(chain_id) if chain_id.isdigit() else chain_id` as a stored value. -/
def chainIdVal (chain_id : String) : PyVal :=
  if pyIsDigit chain_id then .pnat (digitsToNat chain_id.toList)
  else .pstr chain_id

/-- Write sequence of `engine_evm.wizard.finalize_chain_config` after the
merged `web3-defaults.yaml` content has been computed: `blockhost.yaml`,
`.env`, optionally `admin-commands.json` and `admin-signature.key`, and
`vms.json` (only when missing). -/
def evmChainTail (cfg : Config) (fs : FS) (web3Final : PyDict)
    (rpc_url nft_contract sub_contract deployer_address server_pubkey
     bridge : String) : StepOutcome × Config × FS :=
  let provisioner := getDict cfg "provisioner"
  let admin_wallet := getS cfg "admin_wallet" ""
  let fs := fsWrite fs "/etc/blockhost/web3-defaults.yaml" (.pdict web3Final)
  let public_secret := getS cfg "admin_public_secret" "blockhost-access"
  let bh0 : PyDict :=
    [("server", .pdict
      [("address", .pstr deployer_address),
       ("key_file", .pstr "/etc/blockhost/deployer.key")]),
     ("server_public_key", .pstr server_pubkey),
     ("public_secret", .pstr public_secret),
     ("contract_address", .pstr sub_contract)]
  let bh1 :=
    if !provisioner.isEmpty then
      dSet bh0 "provisioner" (.pdict (provisionerSection provisioner bridge))
    else bh0
  let admin_commands := getDict cfg "admin_commands"
  let bh2 := dSet bh1 "admin" (.pdict (adminSection admin_wallet admin_commands))
  let fs := fsWrite fs "/etc/blockhost/blockhost.yaml" (.pdict bh2)
  let fs := fsWrite fs "/opt/blockhost/.env" (.pstr
    ("RPC_URL=" ++ rpc_url ++ "\nBLOCKHOST_CONTRACT=" ++ sub_contract ++
     "\nNFT_CONTRACT=" ++ nft_contract ++
     "\nDEPLOYER_KEY_FILE=/etc/blockhost/deployer.key\n"))
  let fs :=
    if truthyKey admin_commands "enabled" &&
       truthyKey admin_commands "knock_command" then
      fsWrite fs "/etc/blockhost/admin-commands.json"
        (adminCommandsContent admin_commands)
    else fs
  let admin_signature := getS cfg "admin_signature" ""
  let fs :=
    if admin_signature != "" then
      fsWrite fs "/etc/blockhost/admin-signature.key" (.pstr admin_signature)
    else fs
  let vmsPath := "/var/lib/blockhost/vms.json"
  let fs :=
    match fs vmsPath with
    | some _ => fs
    | none =>
      fsWrite fs vmsPath (.pdict
        [("vms", .pdict []),
         ("next_vmid", (dGet provisioner "vmid_start").getD (.pnat 100)),
         ("allocated_ips", .plist []),
         ("allocated_ipv6", .plist []),
         ("reserved_nft_tokens", .pdict [])])
  ((true, none),
   dSet cfg "_step_result_chain_config"
     (.pdict [("message", .pstr "Configuration files written")]),
   fs)

/-- `engine_evm.wizard.finalize_chain_config`. Differs from the opnet
variant: derives the deployer address when absent, stores
`chain_id`/`usdc_address`/`auth` in `web3-defaults.yaml`, does not guard
its `import yaml` (`yamlAvailable = false` with an existing file raises),
and seeds `vms.json` with an extra `reserved_nft_tokens` key. -/
def evmFinalizeChainConfig (cfg : Config) (env : ChainCfgEnv) (fs : FS) :
    StepOutcome × Config × FS :=
  match env.entryExc with
  | some m => ((false, some m), cfg, fs)
  | none =>
    let blockchain := getDict cfg "blockchain"
    let provisioner := getDict cfg "provisioner"
    let chain_id := getS blockchain "chain_id" "11155111"
    let rpc_url := getS blockchain "rpc_url" ""
    let nft_contract := getS blockchain "nft_contract" ""
    let sub_contract := getS blockchain "subscription_contract" ""
    let deployer_key := strip0x (getS blockchain "deployer_key" "")
    let deployer_address0 := getS blockchain "deployer_address" ""
    let deployer_address :=
      if deployer_address0 == "" && deployer_key != "" then
        env.deriveAddr.getD ""
      else deployer_address0
    let server_pubkey := serverPubkeyOf fs
    let bridge := bridgeOf provisioner env.bridgeDiscovered
    let usdc_address := usdcByChain (chainIdNat chain_id)
    let web3b0 : PyDict :=
      [("chain_id", chainIdVal chain_id),
       ("rpc_url", .pstr rpc_url),
       ("nft_contract", .pstr nft_contract),
       ("subscription_contract", .pstr sub_contract)]
    let web3b1 :=
      if usdc_address != "" then
        web3b0 ++ [("usdc_address", .pstr usdc_address)]
      else web3b0
    let web3b2 :=
      if server_pubkey != "" then
        web3b1 ++ [("server_public_key", .pstr server_pubkey)]
      else web3b1
    let web3_config : PyDict :=
      [("blockchain", .pdict web3b2),
       ("deployer", .pdict
         [("private_key_file", .pstr "/etc/blockhost/deployer.key")]),
       ("auth", .pdict [("signing_page", .pstr "blockhost-access")])]
    match fs "/etc/blockhost/web3-defaults.yaml", env.yamlAvailable with
    | some _, false =>
        ((false, some "No module named yaml"), cfg, fs)
    | some existingVal, true =>
      evmChainTail cfg fs
        (mergeSections
          (match existingVal with
           | .pdict d => d
           | _ => [])
          web3_config)
        rpc_url nft_contract sub_contract deployer_address server_pubkey
        bridge
    | none, _ =>
      evmChainTail cfg fs web3_config rpc_url nft_contract sub_contract
        deployer_address server_pubkey bridge

/-! ## Finalization step: plan (evm), with the nonce-race retry -/

/-- The retry pattern `engine_evm.wizard.finalize_plan` applies to its two
`cast send` fallbacks: run the command; if it exited non-zero and its
stderr (lowercased) contains `"nonce"`, sleep 5 seconds and run the *same*
command once more; the second outcome (or the sole first one) is the
result. An exception from the first run propagates before the retry check. -/
def castNonceRetry (cmd : List String) (r1 r2 : Subproc) :
    Subproc × List Ev :=
  match r1 with
  | .finished rc so se =>
    if rc != 0 && strContains (pyLower se) "nonce" then
      (r2, [.run cmd, .sleep 5, .run cmd])
    else (.finished rc so se, [.run cmd])
  | e => (e, [.run cmd])

/-- Environment of one `engine_evm.wizard.finalize_plan` run.
`keyFileContent` is the text of `/etc/blockhost/deployer.key` (`none` when
absent); the `Subproc` fields fix the outcomes of the (up to six) tool
invocations in program order. -/
structure PlanEnv where
  keyFileContent : Option String
  bwStable : Subproc
  castStable1 : Subproc
  castStable2 : Subproc
  bwPlan : Subproc
  castPlan1 : Subproc
  castPlan2 : Subproc

/-- The `bw config stable` argv. -/
def bwStableCmd (usdc : String) : List String := ["bw", "config", "stable", usdc]

/-- The `bw plan create` argv. -/
def bwPlanCmd (plan_name plan_price : String) : List String :=
  ["bw", "plan", "create", plan_name, plan_price]

/-- The `cast send ... setPrimaryStablecoin(address)` argv. -/
def castStableCmd (sub_contract usdc deployer_key rpc_url : String) :
    List String :=
  ["cast", "send", sub_contract, "setPrimaryStablecoin(address)", usdc,
   "--private-key", "0x" ++ deployer_key, "--rpc-url", rpc_url]

/-- The `cast send ... createPlan(string,uint256)` argv. -/
def castPlanCmd (sub_contract plan_name plan_price deployer_key rpc_url :
    String) : List String :=
  ["cast", "send", sub_contract, "createPlan(string,uint256)", plan_name,
   plan_price, "--private-key", "0x" ++ deployer_key, "--rpc-url", rpc_url]

/-- Stablecoin phase of `finalize_plan`: `bw config stable` (non-zero exit
or a missing `bw` falls back to `cast send` with one nonce retry); returns
the accumulated trace, or the step's terminal outcome. -/
def planStablePhase (env : PlanEnv) (usdc sub_contract deployer_key rpc_url :
    String) : Except (StepOutcome × List Ev) (List Ev) :=
  if usdc == "" then .ok []
  else
    let bwCmd := bwStableCmd usdc
    let fallback := fun (t1 : List Ev) =>
      let cmd := castStableCmd sub_contract usdc deployer_key rpc_url
      let r := castNonceRetry cmd env.castStable1 env.castStable2
      match r.1 with
      | .finished rc so se =>
          if rc != 0 then
            .error ((false, some ("Failed to set primary stablecoin: " ++
              (if se != "" then se else so))), t1 ++ r.2)
          else .ok (t1 ++ r.2)
      | .timedOut _ =>
          .error ((false, some "Plan creation timed out"), t1 ++ r.2)
      | .notFound m => .error ((false, some m), t1 ++ r.2)
      | .err m => .error ((false, some m), t1 ++ r.2)
    match env.bwStable with
    | .finished rc _ _ =>
        if rc == 0 then .ok [.run bwCmd] else fallback [.run bwCmd]
    | .notFound _ => fallback [.run bwCmd]
    | .timedOut _ =>
        .error ((false, some "Plan creation timed out"), [.run bwCmd])
    | .err m => .error ((false, some m), [.run bwCmd])

/-- `engine_evm.wizard.finalize_plan`: read the deployer key, set the
primary stablecoin (when the chain has a known USDC address), then create
the default plan via `bw plan create` with a `cast send` fallback carrying
one nonce retry. -/
def evmFinalizePlan (cfg : Config) (env : PlanEnv) :
    StepOutcome × Config × List Ev :=
  let blockchain := getDict cfg "blockchain"
  let plan_name := getS blockchain "plan_name" "Basic VM"
  let plan_price := ((dGet blockchain "plan_price_cents").getD
    (.pnat 50)).pyToString
  let chain_id := getS blockchain "chain_id" "11155111"
  let rpc_url := getS blockchain "rpc_url" ""
  let sub_contract := getS blockchain "subscription_contract" ""
  let usdc_address := usdcByChain (chainIdNat chain_id)
  let deployer_key :=
    match env.keyFileContent with
    | some s => pyStrip s
    | none => ""
  if deployer_key == "" then
    ((false, some "Deployer key not available"), cfg, [])
  else
    match planStablePhase env usdc_address sub_contract deployer_key rpc_url with
    | .error (o, t) => (o, cfg, t)
    | .ok t1 =>
      let bwCmd := bwPlanCmd plan_name plan_price
      let successCfg := dSet cfg "_step_result_plan"
        (.pdict [("plan_name", .pstr plan_name),
                 ("price", .pstr (plan_price ++ " cents/day"))])
      let fallback := fun (t2 : List Ev) =>
        let cmd := castPlanCmd sub_contract plan_name plan_price deployer_key
          rpc_url
        let r := castNonceRetry cmd env.castPlan1 env.castPlan2
        match r.1 with
        | .finished rc so se =>
            if rc != 0 then
              ((false, some ("Plan creation failed: " ++
                (if se != "" then se else so))), cfg, t1 ++ t2 ++ r.2)
            else ((true, none), successCfg, t1 ++ t2 ++ r.2)
        | .timedOut _ =>
            ((false, some "Plan creation timed out"), cfg, t1 ++ t2 ++ r.2)
        | .notFound m => ((false, some m), cfg, t1 ++ t2 ++ r.2)
        | .err m => ((false, some m), cfg, t1 ++ t2 ++ r.2)
      match env.bwPlan with
      | .finished rc _ _ =>
          if rc == 0 then ((true, none), successCfg, t1 ++ [.run bwCmd])
          else fallback [.run bwCmd]
      | .notFound _ => fallback [.run bwCmd]
      | .timedOut _ =>
          ((false, some "Plan creation timed out"), cfg, t1 ++ [.run bwCmd])
      | .err m => ((false, some m), cfg, t1 ++ [.run bwCmd])

/-! ## Root agent action: generate-wallet -/

/-- `root-agent-actions/wallet.py:_read_network_from_config`: look at
`web3-defaults.yaml`; `mainnet` iff the configured `rpc_url` contains the
substring `"mainnet"`; any failure yields `testnet`. -/
def readNetworkFromConfig (fs : FS) : String :=
  match fs "/etc/blockhost/web3-defaults.yaml" with
  | some (.pdict d) =>
      if strContains (getS (getDict d "blockchain") "rpc_url" "") "mainnet"
      then "mainnet" else "testnet"
  | _ => "testnet"

/-- Return value of `handle_generate_wallet`: the `ok`/`error` dict, or the
`ok`/`address`/`keyfile` dict. -/
inductive WalletRet where
  | failure (msg : String)
  | success (address : String) (keyfile : String)
  deriving DecidableEq

/-- Observable outcome of `handle_generate_wallet`: a returned dict, or an
uncaught exception escaping the handler. -/
inductive WalletOut where
  | ret (r : WalletRet)
  | raised (msg : String)
  deriving DecidableEq

/-- Environment of one `handle_generate_wallet` call. `shortNameOk` and
`denyNames` stand for `SHORT_NAME_RE` and `WALLET_DENY_NAMES`, which live
in the `_common` module (not part of the provided sources); the claims
hold for every instantiation, so they are kept abstract. `parsed` is
`json.loads` applied to the keygen stdout (`none` = `JSONDecodeError`);
`blockhostGroupExists` is whether `grp.getgrnam("blockhost")` succeeds
(its `KeyError` is not caught and escapes the handler). -/
structure GenWalletEnv where
  shortNameOk : String → Bool
  denyNames : List String
  keygenJsExists : Bool
  keygenRun : Subproc
  parsed : Option PyVal
  blockhostGroupExists : Bool

/-- `root-agent-actions/wallet.py:handle_generate_wallet`. `_common`'s
`CONFIG_DIR` is modelled as `/etc/blockhost` (the value the wizard modules
use); the invalid-data failure message omits the interpolated dict repr. -/
def handleGenerateWallet (env : GenWalletEnv) (fs : FS) (name : String) :
    WalletOut × FS :=
  if !env.shortNameOk name then
    (.ret (.failure ("Invalid wallet name: " ++ name)), fs)
  else if env.denyNames.contains name then
    (.ret (.failure ("Reserved name: " ++ name)), fs)
  else
    let keyfile := "/etc/blockhost/" ++ name ++ ".key"
    if (fs keyfile).isSome then
      (.ret (.failure ("Key file already exists: " ++ keyfile)), fs)
    else if !env.keygenJsExists then
      (.ret (.failure "keygen.js not found at /usr/share/blockhost/keygen.js"),
       fs)
    else
      match env.keygenRun with
      | .notFound m => (.ret (.failure ("keygen.js failed: " ++ m)), fs)
      | .timedOut m => (.ret (.failure ("keygen.js failed: " ++ m)), fs)
      | .err m => (.ret (.failure ("keygen.js failed: " ++ m)), fs)
      | .finished rc stdout stderr =>
        if rc != 0 then
          (.ret (.failure ("keygen.js error: " ++ pyStrip stderr)), fs)
        else
          match env.parsed with
          | none =>
              (.ret (.failure ("keygen.js invalid output: " ++
                String.mk (stdout.toList.take 200))), fs)
          | some (.pdict keygen_out) =>
            let mnemonic := getS keygen_out "mnemonic" ""
            let address := getS keygen_out "address" ""
            if mnemonic == "" || !pyDollarMatch internalAddrCore address then
              (.ret (.failure "keygen.js returned invalid data"), fs)
            else
              let fs := fsWrite fs keyfile (.pstr (mnemonic ++ "\n"))
              if !env.blockhostGroupExists then
                (.raised "KeyError: getgrnam blockhost", fs)
              else
                let ab :=
                  -- a malformed/non-dict addressbook is discarded (the
                  -- code's JSONDecodeError handler keeps the empty dict)
                  match fs "/etc/blockhost/addressbook.json" with
                  | some (.pdict d) => d
                  | _ => []
                let ab2 := dSet ab name
                  (.pdict [("address", .pstr address),
                           ("keyfile", .pstr keyfile)])
                let fs := fsWrite fs "/etc/blockhost/addressbook.json"
                  (.pdict ab2)
                (.ret (.success address keyfile), fs)
          | some _ =>
              -- json.loads produced a non-dict; the handler's `.get` would
              -- raise AttributeError before any file is touched.
              (.raised "AttributeError: get", fs)

/-! ## Bech32m decoding: _bech32_to_opnet_address -/

/-- The bech32 data charset of the manual fallback decoder. -/
def CHARSET : String := "qpzry9x8gf2tvdw0s3jn54khce6mua7l"

/-- `CHARSET.find(c)` as an option. -/
def charsetIdx (c : Char) : Option Nat :=
  CHARSET.toList.indexOf? c

/-- `addr.rfind(c)`: index of the last occurrence. -/
def rfindIdx (l : List Char) (c : Char) : Option Nat :=
  match l.reverse.findIdx? (fun x => x == c) with
  | some i => some (l.length - 1 - i)
  | none => none

/-- The 5-bit-to-8-bit regrouping loop of the manual decoder:
`value = (value << 5) | v; bits += 5; if bits >= 8: bits -= 8;
result.append((value >> bits) & 0xFF)`. -/
def convertBits : List Nat → Nat → Nat → List Nat → List Nat
  | [], _, _, acc => acc
  | v :: rest, bits, value, acc =>
    let value := value * 32 + v
    let bits := bits + 5
    if 8 ≤ bits then
      convertBits rest (bits - 8) value (acc ++ [(value >>> (bits - 8)) % 256])
    else
      convertBits rest bits value acc

/-- The lowercase hex alphabet of `bytes.hex()`. -/
def HEXCHARS : List Char := "0123456789abcdef".toList

/-- One hex digit. -/
def hexChar (n : Nat) : Char := HEXCHARS.getD n '0'

/-- Two hex digits of one byte. -/
def byteToHex (b : Nat) : List Char := [hexChar (b / 16), hexChar (b % 16)]

/-- `bytes(l).hex()`. -/
def bytesToHex (l : List Nat) : String := String.mk (l.map byteToHex).flatten

/-- The manual bech32m fallback decoder inside
`engine_opnet.wizard._bech32_to_opnet_address`. -/
def manualBech32Decode (address : String) : Option String :=
  let addr := (pyLower address).toList
  match rfindIdx addr '1' with
  | none => none
  | some sep =>
    if sep < 1 then none
    else
      let data_chars := addr.drop (sep + 1)
      match data_chars.mapM charsetIdx with
      | none => none
      | some decoded =>
        if decoded.length < 7 then none
        else
          let decoded := decoded.take (decoded.length - 6)
          match decoded with
          | [] => none
          | v0 :: rest =>
            if v0 != 1 then none
            else
              let result := convertBits rest 0 0 []
              if result.length == 32 then some ("0x" ++ bytesToHex result)
              else none

/-- Environment of one `_bech32_to_opnet_address` call: the result of
`segwit_addr.decode(None, address)` when that optional library imports and
decodes (`none` covers `ImportError` and every in-library exception). -/
structure Bech32Env where
  segwitDecode : Option (Nat × List Nat)

/-- `engine_opnet.wizard._bech32_to_opnet_address`: the `segwit_addr` path
(requiring witness version 1 and a 32-byte program whose entries fit in a
byte — otherwise `bytes()` raises and the code falls through), then the
manual bech32m fallback. -/
def bech32ToOpnetAddress (env : Bech32Env) (address : String) :
    Option String :=
  match env.segwitDecode with
  | some (v, prog) =>
    if v == 1 && prog.length == 32 && prog.all (fun b => decide (b < 256)) then
      some ("0x" ++ bytesToHex prog)
    else manualBech32Decode address
  | none => manualBech32Decode address

/-- The initial `vms.json` structure seeded by the opnet chain_config
step. -/
def opnetVmsInit (cfg : Config) : PyVal :=
  .pdict
    [("vms", .pdict []),
     ("next_vmid",
      (dGet (getDict cfg "provisioner") "vmid_start").getD (.pnat 100)),
     ("allocated_ips", .plist []),
     ("allocated_ipv6", .plist [])]

/-- The initial `vms.json` structure seeded by the evm chain_config step. -/
def evmVmsInit (cfg : Config) : PyVal :=
  .pdict
    [("vms", .pdict []),
     ("next_vmid",
      (dGet (getDict cfg "provisioner") "vmid_start").getD (.pnat 100)),
     ("allocated_ips", .plist []),
     ("allocated_ipv6", .plist []),
     ("reserved_nft_tokens", .pdict [])]

/-- Concrete configuration used by the C3 witness. -/
def cfgC3 : Config :=
  [("blockchain", .pdict
    [("contract_mode", .pstr "deploy"),
     ("nft_contract", .pstr "0xaa"),
     ("subscription_contract", .pstr "0xbb")])]

/-- Number of attempted invocations of one fixed command in a trace. -/
def countRuns (t : List Ev) (cmd : List String) : Nat :=
  t.countP (fun e => e == Ev.run cmd)

/-- The trace carried by either constructor of a `planStablePhase` result. -/
def exTrace : Except (StepOutcome × List Ev) (List Ev) → List Ev
  | .ok t => t
  | .error (_, t) => t

/-- Well-formedness of a `StepOutcome`: the error message is present iff
success is false. -/
def stepOutcomeWF (o : StepOutcome) : Prop :=
  (o.1 = true ∧ o.2 = none) ∨ (o.1 = false ∧ ∃ m, o.2 = some m)

/-! ## Theorems -/

theorem opnetRunDeploy_status (eo : OpnetDeployEnv) (j : DeployJob) :
    (opnetRunDeploy eo j).1.status = "completed" ∨
      (opnetRunDeploy eo j).1.status = "failed" := by
  rcases eo with ⟨pre, u, d, run⟩
  cases pre <;> cases run <;>
    simp only [opnetRunDeploy] <;>
    repeat' first
      | (split <;> try simp)
      | simp

theorem opnetRunDeploy_raises (eo : OpnetDeployEnv) (j : DeployJob)
    (h : opnetEnvRaises eo = true) :
    (opnetRunDeploy eo j).1.status = "failed" := by
  rcases eo with ⟨pre, u, d, run⟩
  cases pre <;> cases run <;>
    simp_all [opnetRunDeploy, opnetEnvRaises, Subproc.isExc] <;>
    repeat' (split <;> try simp_all)

theorem evmCastSubPhase_status (env : EvmDeployEnv) (j : DeployJob) :
    (evmCastSubPhase env j).1.status = "completed" ∨
      (evmCastSubPhase env j).1.status = "failed" := by
  unfold evmCastSubPhase
  split <;> simp

theorem evmDeployWithCast_status (env : EvmDeployEnv) (j : DeployJob) :
    (evmDeployWithCast env j).1.status = "completed" ∨
      (evmDeployWithCast env j).1.status = "failed" := by
  unfold evmDeployWithCast
  repeat' first
    | (split <;> try simp)
    | apply evmCastSubPhase_status

theorem evmRunDeployBody_pending (env : EvmDeployEnv) (j : DeployJob) :
    (evmRunDeployBody env j).2.2.isSome =
      (env.deployScriptExists &&
        (env.cfgWriteExc.isSome || env.deployRun.isExc)) := by
  rcases env with ⟨tw, ds, cw, run, na, sa, nc, sc, ue⟩
  cases ds <;> cases cw <;> cases run
  all_goals simp_all [evmRunDeployBody, Subproc.isExc]
  all_goals repeat' (split <;> try simp_all)

theorem evmRunDeployBody_status (env : EvmDeployEnv) (j : DeployJob)
    (h : (evmRunDeployBody env j).2.2 = none) :
    (evmRunDeployBody env j).1.status = "completed" ∨
      (evmRunDeployBody env j).1.status = "failed" := by
  rcases env with ⟨tw, ds, cw, run, na, sa, nc, sc, ue⟩
  cases ds <;> cases cw <;> cases run <;>
    simp_all [evmRunDeployBody] <;>
    repeat' first
      | (split <;> try simp_all)
      | apply evmDeployWithCast_status

theorem evmRunDeploy_status (ee : EvmDeployEnv) (j : DeployJob) :
    (evmRunDeploy ee j).1.status = "completed" ∨
      (evmRunDeploy ee j).1.status = "failed" := by
  unfold evmRunDeploy
  cases htw : ee.tmpWriteExc <;> simp only [htw]
  · cases hu : ee.unlinkExc <;> simp only [hu]
    · cases hp : (evmRunDeployBody ee j).2.2 <;> simp only [hp]
      · exact evmRunDeployBody_status ee j hp
      · simp
    · simp
  · simp

theorem evmRunDeploy_raises (ee : EvmDeployEnv) (j : DeployJob)
    (h : evmEnvRaises ee = true) :
    (evmRunDeploy ee j).1.status = "failed" := by
  rcases ee with ⟨tw, ds, cw, run, na, sa, nc, sc, ue⟩
  cases tw <;> cases ue <;> cases ds <;> cases cw <;> cases run <;>
    simp_all [evmRunDeploy, evmRunDeployBody, evmEnvRaises, Subproc.isExc]

theorem opnetRunDeploy_msg_preExc (eo : OpnetDeployEnv) (j : DeployJob)
    (m : String) (h : eo.preExc = some m) :
    (opnetRunDeploy eo j).1.message = m := by
  unfold opnetRunDeploy
  simp [h]

theorem opnetRunDeploy_msg_err (eo : OpnetDeployEnv) (j : DeployJob)
    (m : String) (hp : eo.preExc = none)
    (hs : eo.usrScriptExists = true ∨ eo.devScriptExists = true)
    (hr : eo.deployRun = .err m) :
    (opnetRunDeploy eo j).1.message = m := by
  rcases eo with ⟨pre, u, d, run⟩
  cases hp
  cases hr
  rcases hs with h | h <;> cases h <;> simp [opnetRunDeploy]

theorem opnetRunDeploy_msg_timeout (eo : OpnetDeployEnv) (j : DeployJob)
    (m : String) (hp : eo.preExc = none)
    (hs : eo.usrScriptExists = true ∨ eo.devScriptExists = true)
    (hr : eo.deployRun = .timedOut m) :
    (opnetRunDeploy eo j).1.message = "Deployment timed out (10 minutes)" := by
  rcases eo with ⟨pre, u, d, run⟩
  cases hp
  cases hr
  rcases hs with h | h <;> cases h <;> simp [opnetRunDeploy]

/-- C1: for every submitted deploy job, if the background worker
(`_run_deploy`, opnet or evm variant) raises any exception — including a
subprocess timeout — the worker catches it and sets the job's status to
`failed` (with the exception's message recorded); and on every execution
path the worker returns with the job's status terminal (`completed` or
`failed`), never still `running`. -/
theorem C1_worker_catches_all_and_never_leaves_running :
    ∀ (eo : OpnetDeployEnv) (j : DeployJob) (ee : EvmDeployEnv)
      (j2 : DeployJob),
      ((opnetRunDeploy eo j).1.status = "completed" ∨
        (opnetRunDeploy eo j).1.status = "failed") ∧
      (opnetEnvRaises eo = true → (opnetRunDeploy eo j).1.status = "failed") ∧
      ((evmRunDeploy ee j2).1.status = "completed" ∨
        (evmRunDeploy ee j2).1.status = "failed") ∧
      (evmEnvRaises ee = true → (evmRunDeploy ee j2).1.status = "failed") ∧
      (∀ m, eo.preExc = some m → (opnetRunDeploy eo j).1.message = m) ∧
      (∀ m, eo.preExc = none →
        (eo.usrScriptExists = true ∨ eo.devScriptExists = true) →
        eo.deployRun = .err m → (opnetRunDeploy eo j).1.message = m) ∧
      (∀ m, eo.preExc = none →
        (eo.usrScriptExists = true ∨ eo.devScriptExists = true) →
        eo.deployRun = .timedOut m →
        (opnetRunDeploy eo j).1.message =
          "Deployment timed out (10 minutes)") :=
  fun eo j ee j2 =>
    ⟨opnetRunDeploy_status eo j, opnetRunDeploy_raises eo j,
     evmRunDeploy_status ee j2, evmRunDeploy_raises ee j2,
     fun m h => opnetRunDeploy_msg_preExc eo j m h,
     fun m hp hs hr => opnetRunDeploy_msg_err eo j m hp hs hr,
     fun m hp hs hr => opnetRunDeploy_msg_timeout eo j m hp hs hr⟩

theorem C1_worker_catches_all_and_never_leaves_running_witness :
    (opnetRunDeploy ⟨some "boom", false, false, .finished 0 "" ""⟩
        initialDeployJob).1.message = "boom" ∧
    (opnetRunDeploy ⟨some "boom", false, false, .finished 0 "" ""⟩
        initialDeployJob).1.status = "failed" ∧
    (evmRunDeploy ⟨none, false, none, .finished 0 "" "", false, false,
        ⟨false, .finished 0 "" "", none⟩, ⟨false, .finished 0 "" "", none⟩,
        some "unlink EPERM"⟩ initialDeployJob).1.status = "failed" := by
  have h := C1_worker_catches_all_and_never_leaves_running
    ⟨some "boom", false, false, .finished 0 "" ""⟩ initialDeployJob
    ⟨none, false, none, .finished 0 "" "", false, false,
      ⟨false, .finished 0 "" "", none⟩, ⟨false, .finished 0 "" "", none⟩,
      some "unlink EPERM"⟩ initialDeployJob
  obtain ⟨a, b, c, d, e, f, g⟩ := h
  exact ⟨e "boom" rfl, b (by decide), d (by decide)⟩

theorem opnetRunDeploy_statusWrites (eo : OpnetDeployEnv) (j : DeployJob)
    (s : String) (hs : s ∈ (opnetRunDeploy eo j).2) :
    s = "completed" ∨ s = "failed" := by
  rcases eo with ⟨pre, u, d, run⟩
  cases pre <;> cases run <;>
    simp_all [opnetRunDeploy] <;>
    repeat' (split at hs <;> try simp_all)

theorem evmCastSubPhase_statusWrites (env : EvmDeployEnv) (j : DeployJob)
    (s : String) (hs : s ∈ (evmCastSubPhase env j).2) :
    s = "completed" ∨ s = "failed" := by
  unfold evmCastSubPhase at hs
  repeat' (split at hs <;> try simp_all)

theorem evmDeployWithCast_statusWrites (env : EvmDeployEnv) (j : DeployJob)
    (s : String) (hs : s ∈ (evmDeployWithCast env j).2) :
    s = "completed" ∨ s = "failed" := by
  unfold evmDeployWithCast at hs
  repeat' first
    | (split at hs <;> try simp_all)
    | exact evmCastSubPhase_statusWrites env _ s hs

theorem evmRunDeployBody_statusWrites (env : EvmDeployEnv) (j : DeployJob)
    (s : String) (hs : s ∈ (evmRunDeployBody env j).2.1) :
    s = "completed" ∨ s = "failed" := by
  rcases env with ⟨tw, ds, cw, run, na, sa, nc, sc, ue⟩
  cases ds <;> cases cw <;> cases run <;>
    simp_all [evmRunDeployBody] <;>
    repeat' first
      | (split at hs <;> try simp_all)
      | exact evmDeployWithCast_statusWrites _ _ s hs

theorem evmRunDeploy_statusWrites (ee : EvmDeployEnv) (j : DeployJob)
    (s : String) (hs : s ∈ (evmRunDeploy ee j).2) :
    s = "completed" ∨ s = "failed" := by
  unfold evmRunDeploy at hs
  cases htw : ee.tmpWriteExc <;> simp only [htw] at hs
  · cases hu : ee.unlinkExc <;> simp only [hu] at hs
    · cases hp : (evmRunDeployBody ee j).2.2 <;> simp only [hp] at hs
      · exact evmRunDeployBody_statusWrites ee j s hs
      · rcases List.mem_append.mp hs with h | h
        · exact evmRunDeployBody_statusWrites ee j s h
        · simp_all
    · rcases List.mem_append.mp hs with h | h
      · exact evmRunDeployBody_statusWrites ee j s h
      · simp_all
  · simp_all

theorem opnetApiDeploy_started (jobs : Registry) (dm ru pt th jid : String)
    (reg2 : Registry)
    (h : opnetApiDeploy jobs dm ru pt th = (.started jid, reg2)) :
    reg2 jid = some initialDeployJob := by
  unfold opnetApiDeploy at h
  dsimp only at h
  split at h
  · simp_all
  · split at h
    · simp_all
    · rw [Prod.mk.injEq] at h
      obtain ⟨h1, h2⟩ := h
      injection h1 with h1
      subst h2
      simp [← h1]

theorem evmApiDeploy_started (jobs : Registry) (dk ru th jid : String)
    (reg2 : Registry)
    (h : evmApiDeploy jobs dk ru th = (.started jid, reg2)) :
    reg2 jid = some initialDeployJob := by
  unfold evmApiDeploy at h
  dsimp only at h
  split at h
  · simp_all
  · rw [Prod.mk.injEq] at h
    obtain ⟨h1, h2⟩ := h
    injection h1 with h1
    subst h2
    simp [← h1]

/-- C2: every job record is created with status `running` and is present in
the registry returned together with the job id; every status value a worker
ever assigns afterwards is `completed` or `failed` — in particular no
assignment ever sets a job back to `running`, so terminal states are never
left. -/
theorem C2_job_status_lifecycle :
    initialDeployJob.status = "running" ∧
    (∀ (jobs : Registry) (dm ru pt th jid : String) (reg2 : Registry),
       opnetApiDeploy jobs dm ru pt th = (.started jid, reg2) →
       reg2 jid = some initialDeployJob) ∧
    (∀ (jobs : Registry) (dk ru th jid : String) (reg2 : Registry),
       evmApiDeploy jobs dk ru th = (.started jid, reg2) →
       reg2 jid = some initialDeployJob) ∧
    (∀ (eo : OpnetDeployEnv) (j : DeployJob) (s : String),
       s ∈ (opnetRunDeploy eo j).2 → s = "completed" ∨ s = "failed") ∧
    (∀ (ee : EvmDeployEnv) (j : DeployJob) (s : String),
       s ∈ (evmRunDeploy ee j).2 → s = "completed" ∨ s = "failed") :=
  ⟨rfl,
   fun jobs dm ru pt th jid reg2 h =>
     opnetApiDeploy_started jobs dm ru pt th jid reg2 h,
   fun jobs dk ru th jid reg2 h => evmApiDeploy_started jobs dk ru th jid reg2 h,
   fun eo j s hs => opnetRunDeploy_statusWrites eo j s hs,
   fun ee j s hs => evmRunDeploy_statusWrites ee j s hs⟩

theorem C2_job_status_lifecycle_witness :
    ((opnetApiDeploy (fun _ => none) "m" "r" "t" "abcd1234").2 "deploy-abcd1234"
      = some initialDeployJob) ∧
    ("failed" = "completed" ∨ "failed" = "failed") :=
  ⟨(C2_job_status_lifecycle).2.1 (fun _ => none) "m" "r" "t" "abcd1234"
      "deploy-abcd1234" (opnetApiDeploy (fun _ => none) "m" "r" "t" "abcd1234").2
      (by refine Prod.ext ?_ rfl; decide),
   (C2_job_status_lifecycle).2.2.2.1
      ⟨some "boom", false, false, .finished 0 "" ""⟩ initialDeployJob "failed"
      (by decide)⟩


/-- C4: when the deploy tool exits zero, the opnet worker collects the
0x-prefixed lines of its stdout: with two or more such lines the job ends
`completed` with both contract fields bound to the first two lines in
order; with exactly one such line it ends `completed` with only the first
field populated and a message noting the subscription contract was not
produced; and when no deploy executable is present (and the development
fallback is absent too) the job ends `failed` with a message naming the
missing tool. -/
theorem C4_worker_stdout_and_missing_tool :
    ∀ (env : OpnetDeployEnv) (j : DeployJob) (stdout stderr : String),
      env.preExc = none →
      (env.usrScriptExists = true ∨ env.devScriptExists = true) →
      env.deployRun = .finished 0 stdout stderr →
      ((2 ≤ (parse0xLines stdout).length →
          (opnetRunDeploy env j).1.status = "completed" ∧
          (opnetRunDeploy env j).1.nft_contract = (parse0xLines stdout)[0]? ∧
          (opnetRunDeploy env j).1.subscription_contract =
            (parse0xLines stdout)[1]?) ∧
       ((parse0xLines stdout).length = 1 →
          (opnetRunDeploy env j).1.status = "completed" ∧
          (opnetRunDeploy env j).1.nft_contract = (parse0xLines stdout)[0]? ∧
          (opnetRunDeploy env j).1.subscription_contract =
            j.subscription_contract ∧
          (opnetRunDeploy env j).1.message =
            "NFT contract deployed (subscription may need payment token)")) ∧
      (∀ (env2 : OpnetDeployEnv) (j2 : DeployJob),
        env2.preExc = none → env2.usrScriptExists = false →
        env2.devScriptExists = false →
        (opnetRunDeploy env2 j2).1.status = "failed" ∧
        (opnetRunDeploy env2 j2).1.message =
          "blockhost-deploy-contracts not found") := by
  intro env j stdout stderr hpre hscript hrun
  refine ⟨⟨?_, ?_⟩, ?_⟩
  · intro hlen
    rcases env with ⟨pre, u, d, run⟩
    cases hpre
    cases hrun
    rcases hscript with h | h <;> cases h <;>
      simp_all [opnetRunDeploy]
  · intro hlen
    rcases env with ⟨pre, u, d, run⟩
    cases hpre
    cases hrun
    rcases hscript with h | h <;> cases h <;>
      simp_all [opnetRunDeploy]
  · intro env2 j2 h1 h2 h3
    rcases env2 with ⟨pre, u, d, run⟩
    cases h1; cases h2; cases h3
    simp [opnetRunDeploy]

theorem C4_worker_stdout_and_missing_tool_witness :
    (opnetRunDeploy ⟨none, true, false, .finished 0 "0xaa\n0xbb" ""⟩
        initialDeployJob).1.status = "completed" ∧
    (opnetRunDeploy ⟨none, true, false, .finished 0 "0xaa\n0xbb" ""⟩
        initialDeployJob).1.nft_contract = some "0xaa" ∧
    (opnetRunDeploy ⟨none, true, false, .finished 0 "0xaa\n0xbb" ""⟩
        initialDeployJob).1.subscription_contract = some "0xbb" ∧
    (opnetRunDeploy ⟨none, false, false, .finished 0 "" ""⟩
        initialDeployJob).1.message =
      "blockhost-deploy-contracts not found" := by
  have h := C4_worker_stdout_and_missing_tool
    ⟨none, true, false, .finished 0 "0xaa\n0xbb" ""⟩
    initialDeployJob "0xaa\n0xbb" "" rfl (Or.inl rfl) rfl
  have h2 := h.1.1 (by decide)
  have h3 := (h.2 ⟨none, false, false, .finished 0 "" ""⟩ initialDeployJob
    rfl rfl rfl).2
  exact ⟨h2.1, by rw [h2.2.1]; decide, by rw [h2.2.2]; decide, h3⟩


/-- C3: in deploy mode, when both `nft_contract` and
`subscription_contract` are already recorded in the context's blockchain
section, `finalize_contracts` (either engine) returns success, records
exactly those two addresses as its step artifact, and attempts no tool
invocation (the subprocess trace is empty). -/
theorem C3_contracts_step_idempotent :
    ∀ (cfg : Config) (envO : OpnetContractsEnv) (envE : EvmContractsEnv),
      getS (getDict cfg "blockchain") "contract_mode" "deploy" = "deploy" →
      getS (getDict cfg "blockchain") "nft_contract" "" ≠ "" →
      getS (getDict cfg "blockchain") "subscription_contract" "" ≠ "" →
      opnetFinalizeContracts cfg envO =
        ((true, none),
         dSet cfg "_step_result_contracts"
           (.pdict [("nft_contract",
              .pstr (getS (getDict cfg "blockchain") "nft_contract" "")),
             ("subscription_contract",
              .pstr (getS (getDict cfg "blockchain")
                "subscription_contract" ""))]),
         []) ∧
      evmFinalizeContracts cfg envE =
        ((true, none),
         dSet cfg "_step_result_contracts"
           (.pdict [("nft_contract",
              .pstr (getS (getDict cfg "blockchain") "nft_contract" "")),
             ("subscription_contract",
              .pstr (getS (getDict cfg "blockchain")
                "subscription_contract" ""))]),
         []) := by
  intro cfg envO envE hmode hnft hsub
  constructor
  · unfold opnetFinalizeContracts
    simp only [hmode]
    norm_num
    simp_all
  · unfold evmFinalizeContracts
    simp only [hmode]
    norm_num
    simp_all


theorem C3_contracts_step_idempotent_witness :
    opnetFinalizeContracts cfgC3
      ⟨.finished 0 "" "", .finished 0 "" "", true, none, true, true,
        .finished 0 "" ""⟩ =
      ((true, none),
       dSet cfgC3 "_step_result_contracts"
         (.pdict [("nft_contract",
            .pstr (getS (getDict cfgC3 "blockchain") "nft_contract" "")),
           ("subscription_contract",
            .pstr (getS (getDict cfgC3 "blockchain")
              "subscription_contract" ""))]),
       []) ∧
    evmFinalizeContracts cfgC3
      ⟨⟨.finished 0 "" "", none⟩, ⟨.finished 0 "" "", none⟩, true, none,
        true, none, .finished 0 "" "", true, true,
        ⟨false, .finished 0 "" "", none⟩, ⟨false, .finished 0 "" "", none⟩⟩ =
      ((true, none),
       dSet cfgC3 "_step_result_contracts"
         (.pdict [("nft_contract",
            .pstr (getS (getDict cfgC3 "blockchain") "nft_contract" "")),
           ("subscription_contract",
            .pstr (getS (getDict cfgC3 "blockchain")
              "subscription_contract" ""))]),
       []) :=
  C3_contracts_step_idempotent cfgC3
    ⟨.finished 0 "" "", .finished 0 "" "", true, none, true, true,
      .finished 0 "" ""⟩
    ⟨⟨.finished 0 "" "", none⟩, ⟨.finished 0 "" "", none⟩, true, none,
      true, none, .finished 0 "" "", true, true,
      ⟨false, .finished 0 "" "", none⟩, ⟨false, .finished 0 "" "", none⟩⟩
    (by decide) (by decide) (by decide)


theorem opnetChainConfig_vms_keep (cfg : Config) (env : ChainCfgEnv)
    (fs : FS) (v : PyVal) (h : fs "/var/lib/blockhost/vms.json" = some v) :
    (opnetFinalizeChainConfig cfg env fs).2.2 "/var/lib/blockhost/vms.json"
      = some v := by
  unfold opnetFinalizeChainConfig
  cases henv : env.entryExc
  · simp [fsWrite, ite_apply, h]
  · simp [h]

theorem opnetChainConfig_vms_create (cfg : Config) (env : ChainCfgEnv)
    (fs : FS) (h : fs "/var/lib/blockhost/vms.json" = none)
    (henv : env.entryExc = none) :
    (opnetFinalizeChainConfig cfg env fs).2.2 "/var/lib/blockhost/vms.json"
      = some (opnetVmsInit cfg) := by
  unfold opnetFinalizeChainConfig
  simp [henv, fsWrite, ite_apply, h, opnetVmsInit]

theorem evmChainTail_vms_keep (cfg : Config) (fs : FS) (w : PyDict)
    (a b c d e f : String) (v : PyVal)
    (h : fs "/var/lib/blockhost/vms.json" = some v) :
    (evmChainTail cfg fs w a b c d e f).2.2 "/var/lib/blockhost/vms.json"
      = some v := by
  unfold evmChainTail
  simp [fsWrite, ite_apply, h]

theorem evmChainTail_vms_create (cfg : Config) (fs : FS) (w : PyDict)
    (a b c d e f : String)
    (h : fs "/var/lib/blockhost/vms.json" = none) :
    (evmChainTail cfg fs w a b c d e f).2.2 "/var/lib/blockhost/vms.json"
      = some (evmVmsInit cfg) := by
  unfold evmChainTail
  simp [fsWrite, ite_apply, h, evmVmsInit]

theorem evmChainConfig_vms_keep (cfg : Config) (env : ChainCfgEnv) (fs : FS)
    (v : PyVal) (h : fs "/var/lib/blockhost/vms.json" = some v) :
    (evmFinalizeChainConfig cfg env fs).2.2 "/var/lib/blockhost/vms.json"
      = some v := by
  unfold evmFinalizeChainConfig
  cases henv : env.entryExc
  · cases hweb : fs "/etc/blockhost/web3-defaults.yaml" <;>
      cases hyaml : env.yamlAvailable <;>
      simp only [henv, hweb, hyaml] <;>
      first
        | exact evmChainTail_vms_keep _ _ _ _ _ _ _ _ _ v h
        | simp [h]
  · simp [henv, h]

theorem evmChainConfig_vms_create (cfg : Config) (env : ChainCfgEnv)
    (fs : FS) (h : fs "/var/lib/blockhost/vms.json" = none)
    (henv : env.entryExc = none) (hyaml : env.yamlAvailable = true) :
    (evmFinalizeChainConfig cfg env fs).2.2 "/var/lib/blockhost/vms.json"
      = some (evmVmsInit cfg) := by
  unfold evmFinalizeChainConfig
  cases hweb : fs "/etc/blockhost/web3-defaults.yaml" <;>
    simp only [henv, hweb, hyaml] <;>
    exact evmChainTail_vms_create _ _ _ _ _ _ _ _ _ h

/-- C7: the chain_config step (either engine) creates the managed-resources
ledger `vms.json` with its initial empty structure only when the file does
not already exist; whenever the ledger file already exists, its contents
are left unchanged on every run. -/
theorem C7_vms_ledger_never_overwritten :
    ∀ (cfg : Config) (env : ChainCfgEnv) (fs : FS),
      (∀ v, fs "/var/lib/blockhost/vms.json" = some v →
        (opnetFinalizeChainConfig cfg env fs).2.2 "/var/lib/blockhost/vms.json"
          = some v ∧
        (evmFinalizeChainConfig cfg env fs).2.2 "/var/lib/blockhost/vms.json"
          = some v) ∧
      (fs "/var/lib/blockhost/vms.json" = none → env.entryExc = none →
        (opnetFinalizeChainConfig cfg env fs).2.2 "/var/lib/blockhost/vms.json"
          = some (opnetVmsInit cfg) ∧
        (env.yamlAvailable = true →
          (evmFinalizeChainConfig cfg env fs).2.2 "/var/lib/blockhost/vms.json"
            = some (evmVmsInit cfg))) :=
  fun cfg env fs =>
    ⟨fun v h =>
      ⟨opnetChainConfig_vms_keep cfg env fs v h,
       evmChainConfig_vms_keep cfg env fs v h⟩,
     fun h henv =>
      ⟨opnetChainConfig_vms_create cfg env fs h henv,
       fun hyaml => evmChainConfig_vms_create cfg env fs h henv hyaml⟩⟩

theorem C7_vms_ledger_never_overwritten_witness :
    ((opnetFinalizeChainConfig [] ⟨none, "br0", true, none⟩
        (fun p => if p == "/var/lib/blockhost/vms.json"
          then some (.pstr "LEDGER") else none)).2.2
      "/var/lib/blockhost/vms.json" = some (.pstr "LEDGER")) ∧
    ((evmFinalizeChainConfig [] ⟨none, "br0", true, none⟩
        (fun _ => none)).2.2 "/var/lib/blockhost/vms.json"
      = some (evmVmsInit [])) :=
  ⟨((C7_vms_ledger_never_overwritten [] ⟨none, "br0", true, none⟩
      (fun p => if p == "/var/lib/blockhost/vms.json"
        then some (.pstr "LEDGER") else none)).1 (.pstr "LEDGER")
      (by rfl)).1,
   (((C7_vms_ledger_never_overwritten [] ⟨none, "br0", true, none⟩
      (fun _ => none)).2 rfl rfl).2 rfl)⟩


theorem opnetFinalizeWallet_wf (cfg : Config) (env : WalletStepEnv)
    (fs : FS) : stepOutcomeWF (opnetFinalizeWallet cfg env fs).1 := by
  unfold opnetFinalizeWallet stepOutcomeWF
  dsimp only
  repeat' split
  all_goals simp

theorem opnetFinalizeContracts_wf (cfg : Config) (env : OpnetContractsEnv) :
    stepOutcomeWF (opnetFinalizeContracts cfg env).1 := by
  unfold opnetFinalizeContracts stepOutcomeWF
  dsimp only
  repeat' split
  all_goals simp

theorem evmFinalizeContractsCast_wf (cfg : Config) (env : EvmContractsEnv)
    (blockchain : PyDict) (t : List Ev) :
    stepOutcomeWF (evmFinalizeContractsCast cfg env blockchain t).1 := by
  unfold evmFinalizeContractsCast stepOutcomeWF
  dsimp only
  repeat' split
  all_goals simp

theorem evmFinalizeContracts_wf (cfg : Config) (env : EvmContractsEnv) :
    stepOutcomeWF (evmFinalizeContracts cfg env).1 := by
  unfold evmFinalizeContracts
  dsimp only
  repeat' (split <;> try (first
    | apply evmFinalizeContractsCast_wf
    | simp [stepOutcomeWF]))

theorem opnetFinalizeChainConfig_wf (cfg : Config) (env : ChainCfgEnv)
    (fs : FS) : stepOutcomeWF (opnetFinalizeChainConfig cfg env fs).1 := by
  unfold opnetFinalizeChainConfig stepOutcomeWF
  dsimp only
  split <;> simp

theorem evmChainTail_wf (cfg : Config) (fs : FS) (w : PyDict)
    (a b c d e f : String) :
    stepOutcomeWF (evmChainTail cfg fs w a b c d e f).1 := by
  unfold evmChainTail stepOutcomeWF
  dsimp only
  simp

theorem evmFinalizeChainConfig_wf (cfg : Config) (env : ChainCfgEnv)
    (fs : FS) : stepOutcomeWF (evmFinalizeChainConfig cfg env fs).1 := by
  unfold evmFinalizeChainConfig
  dsimp only
  repeat' (split <;> try (first
    | apply evmChainTail_wf
    | simp [stepOutcomeWF]))

theorem planStablePhase_wf (env : PlanEnv) (usdc sub key rpc : String)
    (o : StepOutcome) (t : List Ev)
    (h : planStablePhase env usdc sub key rpc = .error (o, t)) :
    o.1 = false ∧ ∃ m, o.2 = some m := by
  unfold planStablePhase at h
  dsimp only at h
  repeat' split at h
  all_goals try simp_all
  all_goals (rcases h with ⟨h1, h2⟩; simp [← h1])

theorem evmFinalizePlan_wf (cfg : Config) (env : PlanEnv) :
    stepOutcomeWF (evmFinalizePlan cfg env).1 := by
  unfold evmFinalizePlan
  dsimp only
  repeat' split
  all_goals try simp [stepOutcomeWF]
  all_goals
    rename_i o t h
    exact Or.inr (planStablePhase_wf _ _ _ _ _ o t h)


/-- C8: every embedded finalization step returns a `StepOutcome` (exceptions
at its modelled failure points are converted into failure outcomes, never
propagated), and the outcome is well-formed: success paths return
`(True, None)` and failure paths return `(False, message)` with a message
present — the error message exists iff success is false. -/
theorem C8_steps_never_throw_and_outcomes_wellformed :
    ∀ (cfg : Config) (wEnv : WalletStepEnv) (ocEnv : OpnetContractsEnv)
      (ecEnv : EvmContractsEnv) (ccEnv : ChainCfgEnv) (pEnv : PlanEnv)
      (fs : FS),
      stepOutcomeWF (opnetFinalizeWallet cfg wEnv fs).1 ∧
      stepOutcomeWF (opnetFinalizeContracts cfg ocEnv).1 ∧
      stepOutcomeWF (evmFinalizeContracts cfg ecEnv).1 ∧
      stepOutcomeWF (opnetFinalizeChainConfig cfg ccEnv fs).1 ∧
      stepOutcomeWF (evmFinalizeChainConfig cfg ccEnv fs).1 ∧
      stepOutcomeWF (evmFinalizePlan cfg pEnv).1 :=
  fun cfg wEnv ocEnv ecEnv ccEnv pEnv fs =>
    ⟨opnetFinalizeWallet_wf cfg wEnv fs,
     opnetFinalizeContracts_wf cfg ocEnv,
     evmFinalizeContracts_wf cfg ecEnv,
     opnetFinalizeChainConfig_wf cfg ccEnv fs,
     evmFinalizeChainConfig_wf cfg ccEnv fs,
     evmFinalizePlan_wf cfg pEnv⟩

theorem castNonceRetry_events (cmd : List String) (r1 r2 : Subproc) (e : Ev)
    (he : e ∈ (castNonceRetry cmd r1 r2).2) :
    e = .run cmd ∨ e = .sleep 5 := by
  unfold castNonceRetry at he
  repeat' split at he
  all_goals simp_all
  all_goals tauto

theorem castNonceRetry_count_le (cmd : List String) (r1 r2 : Subproc)
    (c : List String) : countRuns (castNonceRetry cmd r1 r2).2 c ≤ 2 := by
  unfold castNonceRetry countRuns
  repeat' split
  all_goals by_cases hc : cmd = c <;> simp_all [List.countP_cons]

theorem castNonceRetry_count_eq_two_iff (cmd : List String)
    (r1 r2 : Subproc) :
    countRuns (castNonceRetry cmd r1 r2).2 cmd = 2 ↔
      ∃ rc so se, r1 = .finished rc so se ∧ ¬rc = 0 ∧
        strContains (pyLower se) "nonce" = true := by
  unfold castNonceRetry countRuns
  cases r1 <;> simp [List.countP_cons]
  · rename_i rc so se
    split <;> simp_all [List.countP_cons]
    · rename_i hcond
      exact ⟨rc, so, se, ⟨rfl, rfl, rfl⟩, hcond⟩

theorem castNonceRetry_only_cmd (cmd : List String) (r1 r2 : Subproc)
    (c : List String) (h : 1 ≤ countRuns (castNonceRetry cmd r1 r2).2 c) :
    c = cmd := by
  unfold castNonceRetry countRuns at h
  repeat' split at h
  all_goals by_cases hc : cmd = c <;> simp_all [List.countP_cons]

theorem countRuns_append (t1 t2 : List Ev) (c : List String) :
    countRuns (t1 ++ t2) c = countRuns t1 c + countRuns t2 c := by
  simp [countRuns, List.countP_append]

theorem countRuns_retry_ne (cmd c : List String) (r1 r2 : Subproc)
    (h : ¬c = cmd) : countRuns (castNonceRetry cmd r1 r2).2 c = 0 := by
  by_contra hne
  exact h (castNonceRetry_only_cmd cmd r1 r2 c (by omega))

theorem bwStable_ne_castStable (usdc sub key rpc : String) :
    ¬castStableCmd sub usdc key rpc = bwStableCmd usdc := by
  simp [castStableCmd, bwStableCmd]

theorem countRuns_cons_run (a : List String) (t : List Ev) (c : List String) :
    countRuns (Ev.run a :: t) c =
      countRuns t c + (if a = c then 1 else 0) := by
  by_cases h : a = c <;> simp [countRuns, List.countP_cons, h]

theorem stableFallback_count (usdc sub key rpc : String) (r1 r2 : Subproc)
    (c : List String) :
    countRuns (Ev.run (bwStableCmd usdc) ::
        (castNonceRetry (castStableCmd sub usdc key rpc) r1 r2).2) c ≤ 2 ∧
    (1 ≤ countRuns (Ev.run (bwStableCmd usdc) ::
        (castNonceRetry (castStableCmd sub usdc key rpc) r1 r2).2) c →
      c = bwStableCmd usdc ∨ c = castStableCmd sub usdc key rpc) := by
  have hle := castNonceRetry_count_le (castStableCmd sub usdc key rpc) r1 r2 c
  have hne : ¬bwStableCmd usdc = castStableCmd sub usdc key rpc :=
    fun hh => bwStable_ne_castStable usdc sub key rpc hh.symm
  rw [countRuns_cons_run]
  by_cases hc : c = bwStableCmd usdc
  · subst hc
    have h0 : countRuns (castNonceRetry (castStableCmd sub usdc key rpc)
        r1 r2).2 (bwStableCmd usdc) = 0 := by
      refine countRuns_retry_ne _ _ r1 r2 ?_
      intro hh
      exact bwStable_ne_castStable usdc sub key rpc hh.symm
    simp [h0]
  · by_cases h1 : 1 ≤ countRuns (castNonceRetry (castStableCmd sub usdc
        key rpc) r1 r2).2 c
    · have hcc := castNonceRetry_only_cmd _ r1 r2 c h1
      subst hcc
      simp [hne]
      omega
    · have h0 : countRuns (castNonceRetry (castStableCmd sub usdc key rpc)
          r1 r2).2 c = 0 := by omega
      by_cases hbc : bwStableCmd usdc = c
      · exact absurd hbc.symm hc
      · simp [h0, hbc]


theorem planStablePhase_count (env : PlanEnv) (usdc sub key rpc : String)
    (c : List String) :
    countRuns (exTrace (planStablePhase env usdc sub key rpc)) c ≤ 2 ∧
    (1 ≤ countRuns (exTrace (planStablePhase env usdc sub key rpc)) c →
      c = bwStableCmd usdc ∨ c = castStableCmd sub usdc key rpc) := by
  have hfb := stableFallback_count usdc sub key rpc env.castStable1
    env.castStable2 c
  unfold planStablePhase
  dsimp only
  split
  · simp [exTrace, countRuns]
  · repeat' split
    all_goals
      simp only [exTrace, List.singleton_append] at hfb ⊢
    all_goals try exact hfb
    all_goals rw [countRuns_cons_run]
    all_goals by_cases hc : bwStableCmd usdc = c <;> simp [hc, countRuns]

theorem bwPlan_ne_castPlan (n p s k r : String) :
    ¬castPlanCmd s n p k r = bwPlanCmd n p := by
  simp [castPlanCmd, bwPlanCmd]

theorem planFallback_count (n p s k r : String) (r1 r2 : Subproc)
    (c : List String) :
    countRuns (Ev.run (bwPlanCmd n p) ::
        (castNonceRetry (castPlanCmd s n p k r) r1 r2).2) c ≤ 2 ∧
    (1 ≤ countRuns (Ev.run (bwPlanCmd n p) ::
        (castNonceRetry (castPlanCmd s n p k r) r1 r2).2) c →
      c = bwPlanCmd n p ∨ c = castPlanCmd s n p k r) := by
  have hle := castNonceRetry_count_le (castPlanCmd s n p k r) r1 r2 c
  have hne : ¬bwPlanCmd n p = castPlanCmd s n p k r :=
    fun hh => bwPlan_ne_castPlan n p s k r hh.symm
  rw [countRuns_cons_run]
  by_cases hc : c = bwPlanCmd n p
  · subst hc
    have h0 : countRuns (castNonceRetry (castPlanCmd s n p k r)
        r1 r2).2 (bwPlanCmd n p) = 0 := by
      refine countRuns_retry_ne _ _ r1 r2 ?_
      intro hh
      exact bwPlan_ne_castPlan n p s k r hh.symm
    simp [h0]
  · by_cases h1 : 1 ≤ countRuns (castNonceRetry (castPlanCmd s n p k r)
        r1 r2).2 c
    · have hcc := castNonceRetry_only_cmd _ r1 r2 c h1
      subst hcc
      simp [hne]
      omega
    · have h0 : countRuns (castNonceRetry (castPlanCmd s n p k r)
          r1 r2).2 c = 0 := by omega
      by_cases hbc : bwPlanCmd n p = c
      · exact absurd hbc.symm hc
      · simp [h0, hbc]

theorem stable_plan_cmds_disjoint (u s k r s2 n p k2 r2 : String)
    (c : List String)
    (h1 : c = bwStableCmd u ∨ c = castStableCmd s u k r)
    (h2 : c = bwPlanCmd n p ∨ c = castPlanCmd s2 n p k2 r2) : False := by
  rcases h1 with h1 | h1 <;> rcases h2 with h2 | h2 <;>
    subst h1 <;>
    simp [bwStableCmd, castStableCmd, bwPlanCmd, castPlanCmd] at h2

theorem singleRun_count (a c : List String) :
    countRuns [Ev.run a] c ≤ 2 ∧ (1 ≤ countRuns [Ev.run a] c → c = a) := by
  by_cases h : a = c
  · subst h
    simp [countRuns, List.countP_cons]
  · simp [countRuns, List.countP_cons, h]

theorem evmFinalizePlan_count (cfg : Config) (env : PlanEnv)
    (c : List String) :
    countRuns (evmFinalizePlan cfg env).2.2 c ≤ 2 := by
  unfold evmFinalizePlan
  dsimp only
  generalize hkey : (match env.keyFileContent with
    | some s => pyStrip s
    | none => "") = dkey
  split
  · simp [countRuns]
  · split
    · rename_i o t heq
      have hstable := planStablePhase_count env
        (usdcByChain (chainIdNat (getS (getDict cfg "blockchain")
          "chain_id" "11155111")))
        (getS (getDict cfg "blockchain") "subscription_contract" "")
        dkey
        (getS (getDict cfg "blockchain") "rpc_url" "") c
      rw [heq] at hstable
      simp only [exTrace] at hstable
      exact hstable.1
    · rename_i t1 heq
      have hstable := planStablePhase_count env
        (usdcByChain (chainIdNat (getS (getDict cfg "blockchain")
          "chain_id" "11155111")))
        (getS (getDict cfg "blockchain") "subscription_contract" "")
        dkey
        (getS (getDict cfg "blockchain") "rpc_url" "") c
      rw [heq] at hstable
      simp only [exTrace] at hstable
      have hplanfb := planFallback_count
        (getS (getDict cfg "blockchain") "plan_name" "Basic VM")
        (((dGet (getDict cfg "blockchain") "plan_price_cents").getD
          (.pnat 50)).pyToString)
        (getS (getDict cfg "blockchain") "subscription_contract" "")
        dkey
        (getS (getDict cfg "blockchain") "rpc_url" "")
        env.castPlan1 env.castPlan2 c
      have hcomb : ∀ (T : List Ev), countRuns T c ≤ 2 →
          (1 ≤ countRuns T c →
            c = bwPlanCmd
              (getS (getDict cfg "blockchain") "plan_name" "Basic VM")
              (((dGet (getDict cfg "blockchain") "plan_price_cents").getD
                (.pnat 50)).pyToString) ∨
            c = castPlanCmd
              (getS (getDict cfg "blockchain") "subscription_contract" "")
              (getS (getDict cfg "blockchain") "plan_name" "Basic VM")
              (((dGet (getDict cfg "blockchain") "plan_price_cents").getD
                (.pnat 50)).pyToString)
              dkey
              (getS (getDict cfg "blockchain") "rpc_url" "")) →
          countRuns t1 c + countRuns T c ≤ 2 := by
        intro T hT1 hT2
        by_cases h1 : 1 ≤ countRuns t1 c
        · by_cases h2 : 1 ≤ countRuns T c
          · exact (stable_plan_cmds_disjoint _ _ _ _ _ _ _ _ _ c
              (hstable.2 h1) (hT2 h2)).elim
          · have := hstable.1
            omega
        · omega
      repeat' split
      all_goals
        simp only [List.append_assoc, List.singleton_append, countRuns_append]
      all_goals
        first
          | exact hcomb _ hplanfb.1 hplanfb.2
          | exact hcomb _ (singleRun_count _ c).1
              (fun h => Or.inl ((singleRun_count _ c).2 h))


theorem evmFinalizePlan_retry_fail (cfg : Config) (env : PlanEnv)
    (ks m : String) (rc1 rc2 : Int) (so1 se1 so2 se2 : String)
    (hkf : env.keyFileContent = some ks)
    (hkey : ¬pyStrip ks = "")
    (husdc : usdcByChain (chainIdNat (getS (getDict cfg "blockchain")
      "chain_id" "11155111")) = "")
    (hbw : env.bwPlan = .notFound m)
    (h1 : env.castPlan1 = .finished rc1 so1 se1)
    (hrc1 : ¬rc1 = 0)
    (hnonce : strContains (pyLower se1) "nonce" = true)
    (h2 : env.castPlan2 = .finished rc2 so2 se2)
    (hrc2 : ¬rc2 = 0) :
    (evmFinalizePlan cfg env).1 =
      (false, some ("Plan creation failed: " ++
        (if se2 != "" then se2 else so2))) ∧
    (evmFinalizePlan cfg env).2.2 =
      [.run (bwPlanCmd (getS (getDict cfg "blockchain") "plan_name"
          "Basic VM")
        (((dGet (getDict cfg "blockchain") "plan_price_cents").getD
          (.pnat 50)).pyToString)),
       .run (castPlanCmd
          (getS (getDict cfg "blockchain") "subscription_contract" "")
          (getS (getDict cfg "blockchain") "plan_name" "Basic VM")
          (((dGet (getDict cfg "blockchain") "plan_price_cents").getD
            (.pnat 50)).pyToString)
          (pyStrip ks)
          (getS (getDict cfg "blockchain") "rpc_url" "")),
       .sleep 5,
       .run (castPlanCmd
          (getS (getDict cfg "blockchain") "subscription_contract" "")
          (getS (getDict cfg "blockchain") "plan_name" "Basic VM")
          (((dGet (getDict cfg "blockchain") "plan_price_cents").getD
            (.pnat 50)).pyToString)
          (pyStrip ks)
          (getS (getDict cfg "blockchain") "rpc_url" ""))] := by
  unfold evmFinalizePlan planStablePhase castNonceRetry
  simp [hkf, hkey, husdc, hbw, h1, h2, hrc1, hnonce, hrc2]


/-- C5: the `cast send` fallback of `finalize_plan` retries exactly once on
the recognized transient nonce condition: every attempted invocation in a
retry block runs the identical command; at most two runs ever happen, with
exactly two precisely when the first run exited non-zero with `"nonce"` in
its (lowercased) stderr; across a whole `finalize_plan` run no command is
attempted more than twice; and when the retried command fails again the
step fails terminally, its trace showing run, 5-second sleep, identical
run. -/
theorem C5_nonce_retry_exactly_once :
    (∀ (cmd : List String) (r1 r2 : Subproc) (e : Ev),
       e ∈ (castNonceRetry cmd r1 r2).2 → e = .run cmd ∨ e = .sleep 5) ∧
    (∀ (cmd c : List String) (r1 r2 : Subproc),
       countRuns (castNonceRetry cmd r1 r2).2 c ≤ 2) ∧
    (∀ (cmd : List String) (r1 r2 : Subproc),
       countRuns (castNonceRetry cmd r1 r2).2 cmd = 2 ↔
         ∃ rc so se, r1 = .finished rc so se ∧ ¬rc = 0 ∧
           strContains (pyLower se) "nonce" = true) ∧
    (∀ (cfg : Config) (env : PlanEnv) (c : List String),
       countRuns (evmFinalizePlan cfg env).2.2 c ≤ 2) ∧
    (∀ (cfg : Config) (env : PlanEnv) (ks m : String) (rc1 rc2 : Int)
       (so1 se1 so2 se2 : String),
       env.keyFileContent = some ks → ¬pyStrip ks = "" →
       usdcByChain (chainIdNat (getS (getDict cfg "blockchain")
         "chain_id" "11155111")) = "" →
       env.bwPlan = .notFound m →
       env.castPlan1 = .finished rc1 so1 se1 → ¬rc1 = 0 →
       strContains (pyLower se1) "nonce" = true →
       env.castPlan2 = .finished rc2 so2 se2 → ¬rc2 = 0 →
       (evmFinalizePlan cfg env).1 =
         (false, some ("Plan creation failed: " ++
           (if se2 != "" then se2 else so2))) ∧
       (evmFinalizePlan cfg env).2.2 =
         [.run (bwPlanCmd (getS (getDict cfg "blockchain") "plan_name"
             "Basic VM")
           (((dGet (getDict cfg "blockchain") "plan_price_cents").getD
             (.pnat 50)).pyToString)),
          .run (castPlanCmd
             (getS (getDict cfg "blockchain") "subscription_contract" "")
             (getS (getDict cfg "blockchain") "plan_name" "Basic VM")
             (((dGet (getDict cfg "blockchain") "plan_price_cents").getD
               (.pnat 50)).pyToString)
             (pyStrip ks)
             (getS (getDict cfg "blockchain") "rpc_url" "")),
          .sleep 5,
          .run (castPlanCmd
             (getS (getDict cfg "blockchain") "subscription_contract" "")
             (getS (getDict cfg "blockchain") "plan_name" "Basic VM")
             (((dGet (getDict cfg "blockchain") "plan_price_cents").getD
               (.pnat 50)).pyToString)
             (pyStrip ks)
             (getS (getDict cfg "blockchain") "rpc_url" ""))]) :=
  ⟨castNonceRetry_events,
   fun cmd c r1 r2 => castNonceRetry_count_le cmd r1 r2 c,
   castNonceRetry_count_eq_two_iff,
   evmFinalizePlan_count,
   fun cfg env ks m rc1 rc2 so1 se1 so2 se2 hkf hkey husdc hbw h1 hrc1
       hnonce h2 hrc2 =>
     evmFinalizePlan_retry_fail cfg env ks m rc1 rc2 so1 se1 so2 se2 hkf
       hkey husdc hbw h1 hrc1 hnonce h2 hrc2⟩

theorem C5_nonce_retry_exactly_once_witness :
    (evmFinalizePlan [("blockchain", .pdict [("chain_id", .pstr "0")])]
      ⟨some "abc", .finished 0 "" "", .finished 0 "" "", .finished 0 "" "",
        .notFound "bw missing", .finished 1 "" "Nonce too low",
        .finished 1 "boom" ""⟩).1 =
      (false, some ("Plan creation failed: " ++
        (if "" != "" then "" else "boom"))) ∧
    countRuns (castNonceRetry ["cast", "send"]
        (.finished 1 "" "bad nonce here") (.finished 1 "" "")).2
      ["cast", "send"] = 2 ∧
    (Ev.sleep 5 = Ev.run ["cast", "send"] ∨ Ev.sleep 5 = Ev.sleep 5) := by
  obtain ⟨a, b, c, d, e⟩ := C5_nonce_retry_exactly_once
  refine ⟨?_, ?_, ?_⟩
  · exact (e [("blockchain", .pdict [("chain_id", .pstr "0")])]
      ⟨some "abc", .finished 0 "" "", .finished 0 "" "", .finished 0 "" "",
        .notFound "bw missing", .finished 1 "" "Nonce too low",
        .finished 1 "boom" ""⟩
      "abc" "bw missing" 1 1 "" "Nonce too low" "boom" ""
      rfl (by decide) (by decide) rfl rfl (by decide) (by decide) rfl
      (by decide)).1
  · exact (c ["cast", "send"] (.finished 1 "" "bad nonce here")
      (.finished 1 "" "")).mpr
      ⟨1, "", "bad nonce here", rfl, by decide, by decide⟩
  · exact a ["cast", "send"] (.finished 1 "" "bad nonce here")
      (.finished 1 "" "") (Ev.sleep 5) (by decide)

theorem genWallet_exists_fails (env : GenWalletEnv) (fs : FS) (name : String)
    (h : (fs ("/etc/blockhost/" ++ name ++ ".key")).isSome = true) :
    (∃ m, (handleGenerateWallet env fs name).1 = .ret (.failure m)) ∧
    (handleGenerateWallet env fs name).2 = fs := by
  unfold handleGenerateWallet
  dsimp only
  repeat' split
  all_goals simp_all

theorem genWallet_failure_no_writes (env : GenWalletEnv) (fs : FS)
    (name m : String)
    (h : (handleGenerateWallet env fs name).1 = .ret (.failure m)) :
    (handleGenerateWallet env fs name).2 = fs := by
  unfold handleGenerateWallet at *
  dsimp only at *
  repeat' split at h
  all_goals simp_all

theorem genWallet_writes_only_valid (env : GenWalletEnv) (fs : FS)
    (name : String)
    (h : (handleGenerateWallet env fs name).2 ≠ fs) :
    ∃ d, env.parsed = some (.pdict d) ∧
      ¬getS d "mnemonic" "" = "" ∧
      pyDollarMatch internalAddrCore (getS d "address" "") = true := by
  unfold handleGenerateWallet at h
  dsimp only at h
  repeat' split at h
  all_goals simp_all

/-- C9: `handle_generate_wallet` never overwrites an existing wallet — an
existing key file for the requested name yields a returned failure with the
filesystem untouched; every returned failure leaves the filesystem
untouched; and the key file or `addressbook.json` is modified only when the
generator's parsed output holds a non-empty mnemonic and an address
matching `^0x[0-9a-fA-F]{64}$`. -/
theorem C9_generate_wallet_never_overwrites :
    ∀ (env : GenWalletEnv) (fs : FS) (name : String),
      ((fs ("/etc/blockhost/" ++ name ++ ".key")).isSome = true →
        (∃ m, (handleGenerateWallet env fs name).1 = .ret (.failure m)) ∧
        (handleGenerateWallet env fs name).2 = fs) ∧
      (∀ m, (handleGenerateWallet env fs name).1 = .ret (.failure m) →
        (handleGenerateWallet env fs name).2 = fs) ∧
      ((handleGenerateWallet env fs name).2 ≠ fs →
        ∃ d, env.parsed = some (.pdict d) ∧
          ¬getS d "mnemonic" "" = "" ∧
          pyDollarMatch internalAddrCore (getS d "address" "") = true) :=
  fun env fs name =>
    ⟨genWallet_exists_fails env fs name,
     fun m h => genWallet_failure_no_writes env fs name m h,
     genWallet_writes_only_valid env fs name⟩

theorem C9_generate_wallet_never_overwrites_witness :
    ((∃ m, (handleGenerateWallet
        ⟨fun _ => true, [], true, .finished 0 "out" "",
          some (.pdict [("mnemonic", .pstr "a b c"),
            ("address", .pstr ("0x" ++ String.mk (List.replicate 64 'a')))]),
          true⟩
        (fun p => if p == "/etc/blockhost/srv.key"
          then some (.pstr "old") else none) "srv").1 = .ret (.failure m)) ∧
      (handleGenerateWallet
        ⟨fun _ => true, [], true, .finished 0 "out" "",
          some (.pdict [("mnemonic", .pstr "a b c"),
            ("address", .pstr ("0x" ++ String.mk (List.replicate 64 'a')))]),
          true⟩
        (fun p => if p == "/etc/blockhost/srv.key"
          then some (.pstr "old") else none) "srv").2 =
      (fun p => if p == "/etc/blockhost/srv.key"
        then some (.pstr "old") else none)) ∧
    (∃ d, (some (.pdict [("mnemonic", .pstr "a b c"),
        ("address", .pstr ("0x" ++ String.mk (List.replicate 64 'a')))]) :
          Option PyVal) = some (.pdict d) ∧
      ¬getS d "mnemonic" "" = "" ∧
      pyDollarMatch internalAddrCore (getS d "address" "") = true) :=
  ⟨(C9_generate_wallet_never_overwrites
      ⟨fun _ => true, [], true, .finished 0 "out" "",
        some (.pdict [("mnemonic", .pstr "a b c"),
          ("address", .pstr ("0x" ++ String.mk (List.replicate 64 'a')))]),
        true⟩
      (fun p => if p == "/etc/blockhost/srv.key"
        then some (.pstr "old") else none) "srv").1 (by decide),
   (C9_generate_wallet_never_overwrites
      ⟨fun _ => true, [], true, .finished 0 "out" "",
        some (.pdict [("mnemonic", .pstr "a b c"),
          ("address", .pstr ("0x" ++ String.mk (List.replicate 64 'a')))]),
        true⟩
      (fun _ => none) "srv").2.2
    (by
      intro hEq
      have h1 : (handleGenerateWallet
          ⟨fun _ => true, [], true, .finished 0 "out" "",
            some (.pdict [("mnemonic", .pstr "a b c"),
              ("address",
               .pstr ("0x" ++ String.mk (List.replicate 64 'a')))]),
            true⟩
          (fun _ => none) "srv").2 "/etc/blockhost/srv.key" =
          some (.pstr ("a b c" ++ "
")) := rfl
      rw [hEq] at h1
      exact Option.noConfusion h1)⟩

theorem all_getD (P : Char → Bool) :
    ∀ (l : List Char) (n : Nat) (d : Char), (∀ x ∈ l, P x = true) →
      P d = true → P (l.getD n d) = true
  | [], n, d, _, hd => by simpa [List.getD_nil] using hd
  | a :: l, 0, d, hl, _ => by
      simpa [List.getD_cons_zero] using hl a (by simp)
  | a :: l, n + 1, d, hl, hd => by
      simpa [List.getD_cons_succ] using
        all_getD P l n d (fun x hx => hl x (by simp [hx])) hd

theorem isLowerHexDig_hexChar (n : Nat) : isLowerHexDig (hexChar n) = true :=
  all_getD isLowerHexDig HEXCHARS n '0' (by decide) (by decide)

theorem bytesToHex_toList (l : List Nat) :
    (bytesToHex l).toList = (l.map byteToHex).flatten := rfl

theorem bytesToHex_length (l : List Nat) :
    (bytesToHex l).toList.length = 2 * l.length := by
  rw [bytesToHex_toList]
  induction l with
  | nil => simp
  | cons b t ih =>
    simp only [List.map_cons, List.flatten_cons, List.length_append,
      List.length_cons, ih, byteToHex]
    simp
    omega

theorem bytesToHex_all_hex (l : List Nat) :
    (bytesToHex l).toList.all isLowerHexDig = true := by
  rw [bytesToHex_toList]
  induction l with
  | nil => simp
  | cons b t ih =>
    simp only [List.map_cons, List.flatten_cons, List.all_append, ih,
      byteToHex]
    simp [isLowerHexDig_hexChar]

theorem hex32_format (l : List Nat) (hl : l.length = 32) :
    ("0x" ++ bytesToHex l).toList.length = 66 ∧
    ("0x" ++ bytesToHex l).toList.take 2 = ['0', 'x'] ∧
    (("0x" ++ bytesToHex l).toList.drop 2).all isLowerHexDig = true ∧
    (("0x" ++ bytesToHex l).toList.drop 2).length = 64 := by
  have hdata : ("0x" ++ bytesToHex l).toList =
      '0' :: 'x' :: (bytesToHex l).toList := rfl
  have hlen := bytesToHex_length l
  have hhex := bytesToHex_all_hex l
  rw [hdata]
  simp_all


theorem manualBech32Decode_format (address : String) :
    manualBech32Decode address = none ∨
    ∃ l, l.length = 32 ∧
      manualBech32Decode address = some ("0x" ++ bytesToHex l) := by
  unfold manualBech32Decode
  dsimp only
  repeat' split
  all_goals simp_all
  rename_i hlen
  exact ⟨_, by simpa using hlen, rfl⟩

/-- C10: for every input string and environment,
`_bech32_to_opnet_address` returns either `None` or a string consisting of
`0x` followed by exactly 64 lowercase hex characters (a 32-byte value), so
callers substituting its result for a bech32 address never obtain a
malformed internal address. -/
theorem C10_bech32_conversion_wellformed :
    ∀ (env : Bech32Env) (address : String),
      bech32ToOpnetAddress env address = none ∨
      ∃ s, bech32ToOpnetAddress env address = some s ∧
        s.toList.length = 66 ∧
        s.toList.take 2 = ['0', 'x'] ∧
        (s.toList.drop 2).all isLowerHexDig = true ∧
        (s.toList.drop 2).length = 64 := by
  intro env address
  have hmanual : manualBech32Decode address = none ∨
      ∃ s, manualBech32Decode address = some s ∧
        s.toList.length = 66 ∧ s.toList.take 2 = ['0', 'x'] ∧
        (s.toList.drop 2).all isLowerHexDig = true ∧
        (s.toList.drop 2).length = 64 := by
    rcases manualBech32Decode_format address with h | ⟨l, hl, h⟩
    · exact Or.inl h
    · exact Or.inr ⟨_, h, (hex32_format l hl).1, (hex32_format l hl).2.1,
        (hex32_format l hl).2.2.1, (hex32_format l hl).2.2.2⟩
  unfold bech32ToOpnetAddress
  rcases hseg : env.segwitDecode with _ | ⟨v, prog⟩
  · exact hmanual
  · dsimp only
    split
    · rename_i hcond
      simp only [Bool.and_eq_true, beq_iff_eq] at hcond
      refine Or.inr ⟨_, rfl, ?_, ?_, ?_, ?_⟩
      · exact (hex32_format prog hcond.1.2).1
      · exact (hex32_format prog hcond.1.2).2.1
      · exact (hex32_format prog hcond.1.2).2.2.1
      · exact (hex32_format prog hcond.1.2).2.2.2
    · exact hmanual

end Blockhost
